import Mathlib

/-!
Verification development for the pacifica filesystem-routing compiler.

The definitions below are a shallow embedding of the TypeScript sources
`src/common/routes.ts` (filename grammar and route-config builder) and
`src/server/manifest.ts` (manifest builder and merge), plus the file-tree
data type from `src/server/file-tree.ts`.  Thrown JS `Error`s are modelled
with `Except String`, carrying the exact message strings of the source.
JS `Record<string, T>` objects are modelled as ordered association lists
(insertion order preserved, in-place update on existing keys), matching
`Object.entries` iteration order.  Optional record fields that are either
`undefined` or non-empty in every reachable state are modelled as plain
lists, with `[]` standing for `undefined`.

General recursion over trees is embedded with an explicit fuel parameter
(`Nat`); every fueled function returns the distinguished error
"out of fuel" when the fuel is exhausted, and top-level wrappers supply a
fuel that is generously larger than the input size.
-/

namespace Pacifica

/-- File tree nodes produced by the directory walker (`file-tree.ts`):
`TreeDir {filename, src, children}` and `TreeFile {filename, src}`. -/
inductive FileTree where
  | dir (filename : String) (src : String) (children : List FileTree)
  | file (filename : String) (src : String)
deriving Repr

def FileTree.filename : FileTree → String
  | .dir fn _ _ => fn
  | .file fn _ => fn

def FileTree.src : FileTree → String
  | .dir _ s _ => s
  | .file _ s => s

/-- Children of a directory node; `[]` for files (the source only ever
reads `children` on values typed `TreeDir`). -/
def FileTree.childrenD : FileTree → List FileTree
  | .dir _ _ cs => cs
  | .file _ _ => []

def FileTree.isDir : FileTree → Bool
  | .dir _ _ _ => true
  | .file _ _ => false

/-- `RouteConfigInterceptType`: the source strings "." / ".." / "../.." /
"..." are modelled as `same` / `oneUp` / `twoUp` / `root`. -/
inductive RouteConfigInterceptType where
  | same | oneUp | twoUp | root
deriving Repr, DecidableEq

/-- `RouteConfigParamType`: "required" | "optional" | "catch-all". -/
inductive RouteConfigParamType where
  | required | optional | catchAll
deriving Repr, DecidableEq

/-- `ParsedRouteName` of `routes.ts`: a tagged variant carrying the file
tree node it was parsed from. -/
inductive ParsedRouteName where
  | segment (name : String) (param : Option RouteConfigParamType)
      (intercept : Option RouteConfigInterceptType) (tree : FileTree)
      (extension : Option String)
  | group (name : String) (tree : FileTree)
  | slot (name : String) (tree : FileTree)
  | fallback (name : String) (tree : FileTree)
deriving Repr

def ParsedRouteName.tree : ParsedRouteName → FileTree
  | .segment _ _ _ t _ => t
  | .group _ t => t
  | .slot _ t => t
  | .fallback _ t => t

/-- `RouteConfig` of `routes.ts`: pages are leaves with a source file,
nodes are directories.  Optional fields are `Option`/lists with `[]` for
an absent `scripts` array. -/
inductive RouteConfig where
  | node (intercept : Option RouteConfigInterceptType) (path : String)
      (param : Option String) (layout : Option String)
      (scripts : List String) (children : List RouteConfig)
  | page (intercept : Option RouteConfigInterceptType) (path : String)
      (param : Option String) (file : String)
deriving Repr

def RouteConfig.path : RouteConfig → String
  | .node _ p _ _ _ _ => p
  | .page _ p _ _ => p

def RouteConfig.intercept : RouteConfig → Option RouteConfigInterceptType
  | .node i _ _ _ _ _ => i
  | .page i _ _ _ => i

/-- `isRouteConfigPage`. -/
def isRouteConfigPage : RouteConfig → Bool
  | .page _ _ _ _ => true
  | .node _ _ _ _ _ _ => false

/-- The `{ intercept, ...trimmed } = config` destructuring: the same
config with the intercept flag removed. -/
def RouteConfig.removeIntercept : RouteConfig → RouteConfig
  | .node _ p pa l s c => .node none p pa l s c
  | .page _ p pa f => .page none p pa f

/- ### String helpers (JS string primitives used by the source) -/

/-- JS `String.prototype.startsWith`. -/
def strStartsWith (s pre : String) : Bool :=
  pre.toList.isPrefixOf s.toList

/-- JS `String.prototype.endsWith`. -/
def strEndsWith (s suf : String) : Bool :=
  suf.toList.isSuffixOf s.toList

/-- JS `s.slice(1)`: drop the first character. -/
def strDropOne (s : String) : String :=
  (s.toList.drop 1).asString

/-- `filename.slice(0, filename.indexOf("."))`, the whole string when
there is no dot: the longest dot-free prefix. -/
def strUntilDot (s : String) : String :=
  (s.toList.takeWhile (fun c => c ≠ '.')).asString

/-- `path.basename`: the component after the last `/` (inputs here never
end in a slash). -/
def basenameStr (s : String) : String :=
  ((s.toList.reverse.takeWhile (fun c => c ≠ '/')).reverse).asString

/-- `list.join("/")`. -/
def joinSlash (l : List String) : String :=
  String.intercalate "/" l

/- ### The filename grammar (the anchored regexes of `routes.ts`)

Each regex is anchored on both sides and its capture groups exclude the
characters that delimit them, so greedy matching with backtracking is
equivalent to the deterministic decompositions implemented below (the
first capture group is always a maximal run of its character class, and
the optional trailing `(\..*)?` group forces the remainder to be empty or
to start with a dot, which is automatic for a maximal dot-excluding run).
-/

/-- `SEGMENT_REGEX = /^([^.()]+)(\..*)?$/`; returns (name, extension),
the extension being `none` when the optional group did not match. -/
def parseSegmentName (filename : String) : Option (String × Option String) :=
  let cs := filename.toList
  let run := cs.takeWhile (fun c => c ≠ '.' ∧ c ≠ '(' ∧ c ≠ ')')
  let rest := cs.drop run.length
  if run ≠ [] ∧ (rest = [] ∨ rest.head? = some '.') then
    some (run.asString, if rest = [] then none else some rest.asString)
  else none

/-- `ESCAPED_REGEX = /^([^()]+)\(([^)]+)\)(\..*)?$/`; returns
(segment, group). -/
def parseEscapedRoute (filename : String) : Option (String × String) :=
  let cs := filename.toList
  let a := cs.takeWhile (fun c => c ≠ '(' ∧ c ≠ ')')
  match cs.drop a.length with
  | c :: afterParen =>
    if c = '(' then
      let b := afterParen.takeWhile (fun c => c ≠ ')')
      match afterParen.drop b.length with
      | c2 :: ext =>
        if c2 = ')' ∧ a ≠ [] ∧ b ≠ [] ∧ (ext = [] ∨ ext.head? = some '.')
        then some (a.asString, b.asString)
        else none
      | [] => none
    else none
  | [] => none

/-- `GROUP_REGEX = /^\(([^.]+)\)(\..*)?$/`. -/
def parseGroupName (filename : String) : Option String :=
  match filename.toList with
  | c :: rest =>
    if c = '(' then
      let r := rest.takeWhile (fun c => c ≠ '.')
      if r.getLast? = some ')' ∧ 2 ≤ r.length then
        some r.dropLast.asString
      else none
    else none
  | [] => none

/-- `SLOT_REGEX = /^@([^.]+)(\..*)?$/`. -/
def parseSlotName (filename : String) : Option String :=
  match filename.toList with
  | c :: rest =>
    if c = '@' then
      let r := rest.takeWhile (fun c => c ≠ '.')
      if r ≠ [] then some r.asString else none
    else none
  | [] => none

/-- `FALLBACK_REGEX = /^\*([^.]+)(\..*)?$/`. -/
def parseFallbackName (filename : String) : Option String :=
  match filename.toList with
  | c :: rest =>
    if c = '*' then
      let r := rest.takeWhile (fun c => c ≠ '.')
      if r ≠ [] then some r.asString else none
    else none
  | [] => none

/-- `OPTIONAL_PARAM_REGEX = /^\[\[([^.]+)\]\](\..*)?$/`. -/
def parseOptionalParamName (filename : String) : Option String :=
  match filename.toList with
  | c1 :: c2 :: rest =>
    if c1 = '[' ∧ c2 = '[' then
      let r := rest.takeWhile (fun c => c ≠ '.')
      if r.getLast? = some ']' ∧ r.dropLast.getLast? = some ']' ∧
          3 ≤ r.length then
        some r.dropLast.dropLast.asString
      else none
    else none
  | _ => none

/-- `REQUIRED_PARAM_REGEX = /^\[([^.]+)\](\..*)?$/`. -/
def parseRequiredParamName (filename : String) : Option String :=
  match filename.toList with
  | c :: rest =>
    if c = '[' then
      let r := rest.takeWhile (fun c => c ≠ '.')
      if r.getLast? = some ']' ∧ 2 ≤ r.length then
        some r.dropLast.asString
      else none
    else none
  | [] => none

/-- `CATCH_ALL_REGEX = /^\[\.\.\.([^.]+)\](\..*)?$/`. -/
def parseCatchAllParamName (filename : String) : Option String :=
  match filename.toList with
  | c1 :: c2 :: c3 :: c4 :: rest =>
    if c1 = '[' ∧ c2 = '.' ∧ c3 = '.' ∧ c4 = '.' then
      let r := rest.takeWhile (fun c => c ≠ '.')
      if r.getLast? = some ']' ∧ 2 ≤ r.length then
        some r.dropLast.asString
      else none
    else none
  | _ => none

/-- `parseParam`: the three param alternatives in source order. -/
def parseParam (filename : String) : Option (RouteConfigParamType × String) :=
  match parseOptionalParamName filename with
  | some n => some (.optional, n)
  | none =>
    match parseRequiredParamName filename with
    | some n => some (.required, n)
    | none =>
      match parseCatchAllParamName filename with
      | some n => some (.catchAll, n)
      | none => none

/-- Helper for `INTERCEPT_REGEX`: strip a literal alternative. -/
def stripPre (pre cs : List Char) : Option (List Char) :=
  if pre.isPrefixOf cs then some (cs.drop pre.length) else none

/-- The trailing `([^()]+)$` of the intercept regex. -/
def interceptRestOk (cs : List Char) : Bool :=
  !cs.isEmpty && cs.all (fun c => c ≠ '(' && c ≠ ')')

def interceptAlt (pre : List Char) (k : RouteConfigInterceptType)
    (cs : List Char) : Option (RouteConfigInterceptType × String) :=
  match stripPre pre cs with
  | some rest => if interceptRestOk rest then some (k, rest.asString) else none
  | none => none

/-- `INTERCEPT_REGEX = /^(\(\.\)|\(\.\.\)|\(\.\.\)\(\.\.\)|\(\.\.\.\))([^()]+)$/`,
with `parseInterceptType` inlined (its throwing branch is unreachable:
group 1 only ever matches the four listed alternatives).  Returns the
intercept kind and the remaining filename. -/
def parseIntercept (filename : String) :
    Option (RouteConfigInterceptType × String) :=
  let cs := filename.toList
  match interceptAlt ['(', '.', ')'] .same cs with
  | some r => some r
  | none =>
  match interceptAlt ['(', '.', '.', ')'] .oneUp cs with
  | some r => some r
  | none =>
  match interceptAlt "(..)(..)".toList .twoUp cs with
  | some r => some r
  | none => interceptAlt ['(', '.', '.', '.', ')'] .root cs

/- ### Classification helpers -/

/-- `isLayout`: a file whose name starts with exactly one `_`. -/
def isLayout (tree : FileTree) : Bool :=
  !tree.isDir && strStartsWith tree.filename "_" &&
    !strStartsWith tree.filename "__"

/-- `isScript`: a file ending in `.script.ts` or `.script.tsx`. -/
def isScript (tree : FileTree) : Bool :=
  !tree.isDir && (strEndsWith tree.filename ".script.ts" ||
    strEndsWith tree.filename ".script.tsx")

/-- `parseRouteName` of `routes.ts`; throws on layouts and unparseable
segment names. -/
def parseRouteName (tree : FileTree) : Except String ParsedRouteName :=
  if isLayout tree then .error "unexpected layout"
  else
    match parseGroupName tree.filename with
    | some n => .ok (.group n tree)
    | none =>
    match parseSlotName tree.filename with
    | some n => .ok (.slot n tree)
    | none =>
    match parseFallbackName tree.filename with
    | some n => .ok (.fallback n tree)
    | none =>
      let intercept := parseIntercept tree.filename
      let filename := match intercept with
        | some (_, f) => f
        | none => tree.filename
      let param := parseParam filename
      let escaped := parseEscapedRoute filename
      let segmentName := parseSegmentName filename
      let extension := match segmentName with
        | some (_, e) => e
        | none => none
      let name : Option String := match param with
        | some (_, n) => some n
        | none =>
          match escaped with
          | some (seg, _) => some seg
          | none =>
            match segmentName with
            | some (n, _) => some n
            | none => none
      match name with
      | none => .error ("invalid segment name: " ++ filename)
      | some name =>
        .ok (.segment name (param.map Prod.fst) (intercept.map Prod.fst)
          tree extension)

/-- `getParamName`. -/
def getParamName : ParsedRouteName → Option String
  | .segment n (some _) _ _ _ => some n
  | _ => none

/-- `getSegmentPath`: URL path from a parsed segment name. -/
def getSegmentPath (name : String) (param : Option RouteConfigParamType) :
    String :=
  match param with
  | some .required => "/:" ++ name
  | some .optional => "/:" ++ name ++ "?"
  | some .catchAll => "/*" ++ name
  | none => "/" ++ name

/-- `getRoutePath`: `none` for groups. -/
def getRoutePath : ParsedRouteName → Option String
  | .segment n p _ _ _ => some (getSegmentPath n p)
  | .group _ _ => none
  | .slot n _ => some ("/@" ++ n)
  | .fallback n _ => some ("/^" ++ n)

/-- `isIndex`: a non-layout file whose parsed name is a segment named
`index`, or a group-classified file.  Parse errors propagate. -/
def isIndex (child : FileTree) : Except String Bool :=
  if child.isDir then .ok false
  else if isLayout child then .ok false
  else do
    let rn ← parseRouteName child
    match rn with
    | .segment n _ _ _ _ => .ok (n = "index")
    | .group _ _ => .ok true
    | _ => .ok false

/-- Fuel supplied by the top-level wrappers: far more than any realistic
input consumes (each recursive call of the embedding burns one unit). -/
def compileFuel : Nat := 1000000

/- ### `getCollapsedGroups`, as a fueled recursion

The source is a generator: a (tree, parsed-name) pair is yielded as-is
unless the tree is a directory and the name a group, in which case the
directory's children are parsed and recursively collapsed, in order.
-/

mutual

def getCollapsedGroups :
    Nat → FileTree → ParsedRouteName →
    Except String (List (FileTree × ParsedRouteName))
  | 0, _, _ => .error "out of fuel"
  | fuel + 1, tree, routeName =>
    match tree, routeName with
    | .dir fn src children, .group _ _ =>
      collapseChildrenList fuel (FileTree.dir fn src children) children
    | t, rn => .ok [(t, rn)]

def collapseChildrenList :
    Nat → FileTree → List FileTree →
    Except String (List (FileTree × ParsedRouteName))
  | 0, _, _ => .error "out of fuel"
  | _ + 1, _, [] => .ok []
  | fuel + 1, orig, child :: rest => do
    let childRouteName ← parseRouteName child
    let collapsed ← getCollapsedGroups fuel child childRouteName
    let more ← collapseChildrenList fuel orig rest
    .ok (collapsed ++ more)

end

/- ### The index scan of `getRouteConfigFromDirTree` -/

/-- The `for (const child of tree.children) if (isIndex(child)) ...` scan:
the unique index candidate, or `multiple index routes`. -/
def findIndexTree :
    Option FileTree → List FileTree → Except String (Option FileTree)
  | acc, [] => .ok acc
  | acc, child :: rest => do
    let b ← isIndex child
    if b then
      match acc with
      | some _ => .error "multiple index routes"
      | none => findIndexTree (some child) rest
    else findIndexTree acc rest

/- ### The route-config builder (`getRouteConfigFromFileTree` /
`getRouteConfigFromDirTree`), as a mutual fueled recursion.

The per-child loop of the directory builder is `buildConfigChildren`,
threading the `layout` / `scripts` / `children` accumulators in order;
`buildConfigList` maps `getRouteConfigFromFileTree` over a collapsed
(tree, parsed-name) list.  `getCollapsedGroups` receives the builder's
remaining fuel, so a unit of fuel pays for one recursive call of either
family.
-/

mutual

def getRouteConfigFromFileTree :
    Nat → FileTree → Option ParsedRouteName → Except String RouteConfig
  | 0, _, _ => .error "out of fuel"
  | fuel + 1, tree, routeName? => do
    let routeName ← match routeName? with
      | some rn => pure rn
      | none => parseRouteName tree
    match routeName.tree with
    | .file _ _ =>
      match getRoutePath routeName with
      | none =>
        -- fails for groups and index aliases, which are handled when
        -- parsing directories
        .error "invalid route path"
      | some path =>
        let intercept := match routeName with
          | .segment _ _ i _ _ => i
          | _ => none
        .ok (.page intercept path (getParamName routeName) tree.src)
    | .dir dfn dsrc dchildren =>
      getRouteConfigFromDirTree fuel (.dir dfn dsrc dchildren)
        (some routeName) false

def getRouteConfigFromDirTree :
    Nat → FileTree → Option ParsedRouteName → Bool →
    Except String RouteConfig
  | 0, _, _, _ => .error "out of fuel"
  | fuel + 1, tree, routeName?, isRoot => do
    let routeName ← match routeName? with
      | some rn => pure rn
      | none => parseRouteName tree
    -- find the index route for segment dirs
    let indexTree ← match routeName with
      | .segment _ _ _ _ _ => findIndexTree none tree.childrenD
      | _ => pure none
    let indexChildren : List RouteConfig := match indexTree with
      | some it => [.page none "/" none it.src]
      | none => []
    -- parse the children, skipping the index
    let (layout, scripts, rest) ←
      buildConfigChildren fuel (indexTree.map FileTree.filename)
        none [] [] tree.childrenD
    let children := indexChildren ++ rest
    let path? := if isRoot then some "/" else getRoutePath routeName
    match path? with
    | none => .error "invalid route path"
    | some path =>
      match routeName with
      | .segment _ _ i _ _ =>
        .ok (.node i path (getParamName routeName) layout scripts children)
      | .group _ _ =>
        -- all directory groups are collapsed before this
        .error "unexpected group"
      | .slot _ _ => .ok (.node none path none layout [] children)
      | .fallback _ _ => .error "fallback routes must not be directories"

def buildConfigChildren :
    Nat → Option String → Option String → List String → List RouteConfig →
    List FileTree →
    Except String (Option String × List String × List RouteConfig)
  | 0, _, _, _, _, _ => .error "out of fuel"
  | _ + 1, _, layout, scripts, acc, [] => .ok (layout, scripts, acc)
  | fuel + 1, indexFilename, layout, scripts, acc, child :: rest =>
    if indexFilename = some child.filename then
      buildConfigChildren fuel indexFilename layout scripts acc rest
    else if isLayout child then
      match layout with
      | some _ => .error "multiple layouts"
      | none =>
        buildConfigChildren fuel indexFilename (some child.src) scripts
          acc rest
    else do
      let scripts := if isScript child then scripts ++ [child.src]
        else scripts
      let childRouteName ← parseRouteName child
      let collapsed ← getCollapsedGroups fuel child childRouteName
      let built ← buildConfigList fuel collapsed
      buildConfigChildren fuel indexFilename layout scripts (acc ++ built)
        rest

def buildConfigList :
    Nat → List (FileTree × ParsedRouteName) → Except String (List RouteConfig)
  | 0, _ => .error "out of fuel"
  | _ + 1, [] => .ok []
  | fuel + 1, (t, rn) :: rest => do
    let cfg ← getRouteConfigFromFileTree fuel t (some rn)
    let more ← buildConfigList fuel rest
    .ok (cfg :: more)

end

/-- `getRouteConfig`: build the route config of a root directory tree
(`isRoot = true`, no pre-parsed name). -/
def getRouteConfig (tree : FileTree) : Except String RouteConfig :=
  getRouteConfigFromDirTree compileFuel tree none true

/- ### Manifest data model (`manifest.ts`)

JS records are ordered association lists here; the optional
`index` stays an `Option`, while `fallback` / `slots` / `children` use
`[]` for `undefined` (they are never a defined-but-empty record in any
reachable or constructible state, because every `??= {}` is immediately
followed by an insertion or an error).
-/

structure ManifestRouteIndex where
  layouts : List String
  partialPath : String
deriving Repr, DecidableEq

structure ManifestRouteFallback where
  layouts : List String
  partialPath : String
deriving Repr, DecidableEq

/-- `ManifestRoute`: node / page / intercept / public.  The `partial`
field of the source is called `partialPath` here. -/
inductive ManifestRoute where
  | node (segment : String) (index : Option ManifestRouteIndex)
      (fallback : List (String × ManifestRouteFallback))
      (slots : List (String × ManifestRoute))
      (children : List (String × ManifestRoute))
  | page (segment : String) (param : Option String)
      (layouts : List String) (partialPath : String)
  | intercept (base : List String)
      (children : List (String × ManifestRoute))
  | pub (segment : String) (extension : String)
deriving Repr

/- ### Association-list primitives for JS records -/

/-- `record[key]` lookup. -/
def alistLookup {α : Type} : List (String × α) → String → Option α
  | [], _ => none
  | (k, v) :: rest, key => if k = key then some v else alistLookup rest key

/-- `record[key] = value`: update in place when present (keeping the
original position), append otherwise. -/
def alistSet {α : Type} : List (String × α) → String → α → List (String × α)
  | [], key, value => [(key, value)]
  | (k, v) :: rest, key, value =>
    if k = key then (k, value) :: rest
    else (k, v) :: alistSet rest key value

/- ### `RouteState`

The source class mutates `layouts` in place; as analysed in the source,
the only aliasing (`fromSegment` returning `prev` for segment `/`) occurs
at the root where no other reference observes the mutation, so the
copy-on-write functional version below is observationally equivalent.
-/

structure RouteState where
  segments : List String
  layouts : List String
deriving Repr, DecidableEq

def RouteState.empty : RouteState := ⟨[], []⟩

def RouteState.fromSegment (prev : RouteState) (segment : String) :
    RouteState :=
  if segment = "/" then prev
  else ⟨prev.segments ++ [segment], prev.layouts⟩

/-- `pushLayout`: append `<segments>/<name-before-first-dot>.html` if not
already present (the returned layout string is only fed to the no-op
`associateFiles`, so it is dropped here). -/
def RouteState.pushLayout (s : RouteState) (filename : String) :
    RouteState :=
  let trimmed := strUntilDot filename
  let layout := joinSlash (s.segments ++ [trimmed ++ ".html"])
  if s.layouts.contains layout then s
  else ⟨s.segments, s.layouts ++ [layout]⟩

def RouteState.getPartialPath (s : RouteState) (segment : String) : String :=
  joinSlash (s.segments ++ [segment ++ ".html"])

def RouteState.getLayoutPaths (s : RouteState) : List String :=
  s.layouts

/-- `getSegmentFromPath`: URL-segment key from a Route Config path. -/
def getSegmentFromPath (path : String) : String :=
  if path = "/" then "/"
  else if strStartsWith path "/:" then
    (if strEndsWith path "?" then "?" else "*")
  else if strStartsWith path "/*" then "**"
  else strDropOne path

/- ### `mergeManifestRoutes`, as a fueled recursion

The `fallback` and `slots` union loops never recurse and are total; the
`children` union loop recursively merges a colliding key and then
unconditionally overwrites the entry with the right-hand child (both
assignments of the source are performed).
-/

/-- The `right.fallback` union loop: fatal on a duplicate key. -/
def mergeFallbackEntries :
    List (String × ManifestRouteFallback) →
    List (String × ManifestRouteFallback) →
    Except String (List (String × ManifestRouteFallback))
  | acc, [] => .ok acc
  | acc, (segment, fb) :: rest =>
    match alistLookup acc segment with
    | some _ => .error "cannot merge fallback routes"
    | none => mergeFallbackEntries (alistSet acc segment fb) rest

/-- The `right.slots` union loop: fatal on a duplicate key. -/
def mergeSlotEntries :
    List (String × ManifestRoute) → List (String × ManifestRoute) →
    Except String (List (String × ManifestRoute))
  | acc, [] => .ok acc
  | acc, (segment, slot) :: rest =>
    match alistLookup acc segment with
    | some _ => .error "cannot merge slot routes"
    | none => mergeSlotEntries (alistSet acc segment slot) rest

mutual

def mergeManifestRoutes :
    Nat → ManifestRoute → ManifestRoute → Except String ManifestRoute
  | 0, _, _ => .error "out of fuel"
  | fuel + 1, left, right =>
    match left, right with
    | .page _ _ _ _, _ | _, .page _ _ _ _ =>
      .error "cannot merge page routes"
    | .intercept _ _, _ | _, .intercept _ _ =>
      .error "cannot merge intercepts"
    | .pub _ _, _ | _, .pub _ _ => .error "cannot merge public routes"
    | .node lseg lidx lfb lsl lch, .node rseg ridx rfb rsl rch =>
      if lseg ≠ rseg then .error "route segment mismatch"
      else if lidx.isSome ∧ ridx.isSome then
        .error "cannot merge index routes"
      else do
        let fallback ← mergeFallbackEntries lfb rfb
        let slots ← mergeSlotEntries lsl rsl
        let children ← mergeChildEntries fuel lch rch
        .ok (.node lseg (match lidx with
          | some i => some i
          | none => ridx) fallback slots children)

/-- The `right.children` union loop: a colliding key is recursively
merged (errors propagate) and then overwritten by the right child. -/
def mergeChildEntries :
    Nat → List (String × ManifestRoute) → List (String × ManifestRoute) →
    Except String (List (String × ManifestRoute))
  | 0, _, _ => .error "out of fuel"
  | _ + 1, acc, [] => .ok acc
  | fuel + 1, acc, (segment, rightChild) :: rest =>
    match alistLookup acc segment with
    | some leftChild => do
      let merged ← mergeManifestRoutes fuel leftChild rightChild
      mergeChildEntries fuel
        (alistSet (alistSet acc segment merged) segment rightChild) rest
    | none => mergeChildEntries fuel (alistSet acc segment rightChild) rest

end

/- ### The manifest builder (`getManifestRoutesFromConfig` /
`getManifestRoutesFromPage` / `getManifestRoutesFromNode` /
`getManifestRouteIntercept`), as a mutual fueled recursion.
`getManifestRoutesFromPage` never recurses and is total. -/

def getManifestRoutesFromPage (path : String) (param : Option String)
    (state : RouteState) : ManifestRoute :=
  let segment := getSegmentFromPath path
  .page segment param state.getLayoutPaths (state.getPartialPath segment)

mutual

def getManifestRoutesFromConfig :
    Nat → RouteConfig → RouteState → Except String ManifestRoute
  | 0, _, _ => .error "out of fuel"
  | fuel + 1, config, state => do
    let intercepted ← getManifestRouteIntercept fuel config state
    match intercepted with
    | some m => .ok m
    | none =>
      match config with
      | .page _ path param _ =>
        .ok (getManifestRoutesFromPage path param state)
      | .node _ path _ layout _ children =>
        getManifestRoutesFromNode fuel path layout children state

def getManifestRoutesFromNode :
    Nat → String → Option String → List RouteConfig → RouteState →
    Except String ManifestRoute
  | 0, _, _, _, _ => .error "out of fuel"
  | fuel + 1, path, layout, children, state => do
    let segment := getSegmentFromPath path
    let nextState := RouteState.fromSegment state segment
    let nextState := match layout with
      | some l => nextState.pushLayout (basenameStr l)
      | none => nextState
    let (index, fallback, slots, chMap) ←
      manifestChildren fuel nextState none [] [] [] children
    .ok (.node segment index fallback slots chMap)

/-- The per-child loop of `getManifestRoutesFromNode`, threading the
`index` / `fallback` / `slots` / `children` accumulators. -/
def manifestChildren :
    Nat → RouteState → Option ManifestRouteIndex →
    List (String × ManifestRouteFallback) →
    List (String × ManifestRoute) → List (String × ManifestRoute) →
    List RouteConfig →
    Except String (Option ManifestRouteIndex ×
      List (String × ManifestRouteFallback) ×
      List (String × ManifestRoute) × List (String × ManifestRoute))
  | 0, _, _, _, _, _, _ => .error "out of fuel"
  | _ + 1, _, index, fallback, slots, chMap, [] =>
    .ok (index, fallback, slots, chMap)
  | fuel + 1, nextState, index, fallback, slots, chMap, child :: rest =>
    if child.path = "/" then
      match index with
      | some _ => .error "multiple index routes"
      | none =>
        if isRouteConfigPage child then
          manifestChildren fuel nextState
            (some ⟨nextState.getLayoutPaths, nextState.getPartialPath "%"⟩)
            fallback slots chMap rest
        else .error "index route must be a page"
    else do
      let segment := getSegmentFromPath child.path
      let route ← getManifestRoutesFromConfig fuel child nextState
      if strStartsWith segment "^" then
        if !isRouteConfigPage child then
          .error "fallback route must be a page"
        else
          let fallbackRoute : ManifestRouteFallback :=
            ⟨nextState.getLayoutPaths, nextState.getPartialPath segment⟩
          match alistLookup fallback segment with
          | some _ => .error "cannot merge fallback routes"
          | none =>
            manifestChildren fuel nextState index
              (alistSet fallback segment fallbackRoute) slots chMap rest
      else if strStartsWith segment "@" then
        match alistLookup slots segment with
        | some old => do
          let merged ← mergeManifestRoutes fuel old route
          manifestChildren fuel nextState index fallback
            (alistSet slots segment merged) chMap rest
        | none =>
          manifestChildren fuel nextState index fallback
            (alistSet slots segment route) chMap rest
      else
        match alistLookup chMap segment with
        | some old => do
          let merged ← mergeManifestRoutes fuel old route
          manifestChildren fuel nextState index fallback slots
            (alistSet chMap segment merged) rest
        | none =>
          manifestChildren fuel nextState index fallback slots
            (alistSet chMap segment route) rest

def getManifestRouteIntercept :
    Nat → RouteConfig → RouteState → Except String (Option ManifestRoute)
  | 0, _, _ => .error "out of fuel"
  | fuel + 1, config, state =>
    match config.intercept with
    | none => .ok none
    | some kind => do
      let segment := getSegmentFromPath config.path
      let routePath :=
        state.segments.filter (fun s => !strStartsWith s "@")
      let base : List String := match kind with
        | .same => routePath
        | .oneUp => routePath.dropLast
        | .twoUp => routePath.dropLast.dropLast
        | .root => []
      let child ←
        getManifestRoutesFromConfig fuel config.removeIntercept state
      .ok (some (.intercept base [(segment, child)]))

end

/-- `getManifestRoutes`: empty route state. -/
def getManifestRoutes (config : RouteConfig) : Except String ManifestRoute :=
  getManifestRoutesFromConfig compileFuel config RouteState.empty

/- ### Concrete end-to-end scenario (claim C7) -/

/-- The §8 end-to-end input tree: `root/index.tsx`, `root/about/page.tsx`,
`root/(group)/contact/page.tsx`, `root/_layout.tsx`. -/
def c7Tree : FileTree := .dir "root" "" [
  .file "index.tsx" "index.tsx",
  .dir "about" "about" [.file "page.tsx" "about/page.tsx"],
  .dir "(group)" "(group)"
    [.dir "contact" "(group)/contact"
      [.file "page.tsx" "(group)/contact/page.tsx"]],
  .file "_layout.tsx" "_layout.tsx"]

/-- The manifest node the compiler actually produces for the `about`
directory of `c7Tree`. -/
def c7AboutNode : ManifestRoute :=
  .node "about" none [] []
    [("page", .page "page" none ["_layout.html"] "about/page.html")]

/-- The manifest node produced for the collapsed `(group)/contact`
directory of `c7Tree`. -/
def c7ContactNode : ManifestRoute :=
  .node "contact" none [] []
    [("page", .page "page" none ["_layout.html"] "contact/page.html")]

/-- The full manifest the compiler produces for `c7Tree`. -/
def c7Manifest : ManifestRoute :=
  .node "/" (some ⟨["_layout.html"], "%.html"⟩) [] []
    [("about", c7AboutNode), ("contact", c7ContactNode)]

/-- The `partial` of a manifest route as the spec's end-to-end example
reads it: only a Page value carries one. -/
def manifestPartial : ManifestRoute → Option String
  | .page _ _ _ p => some p
  | _ => none

/-- Kind tests on manifest routes (the `left.kind === "page"` style
checks of `mergeManifestRoutes`). -/
def ManifestRoute.isPage : ManifestRoute → Bool
  | .page _ _ _ _ => true
  | _ => false

def ManifestRoute.isIntercept : ManifestRoute → Bool
  | .intercept _ _ => true
  | _ => false

def ManifestRoute.isPub : ManifestRoute → Bool
  | .pub _ _ => true
  | _ => false

/-- Replace the embedded tree of a parsed route name (the only field in
which parses of same-named directories with different children differ). -/
def ParsedRouteName.setTree (t : FileTree) : ParsedRouteName → ParsedRouteName
  | .segment n p i _ e => .segment n p i t e
  | .group n _ => .group n t
  | .slot n _ => .slot n t
  | .fallback n _ => .fallback n t

/-- The tree embedded in a parsed route name. -/
def ParsedRouteName.treeOf : ParsedRouteName → FileTree
  | .segment _ _ _ t _ => t
  | .group _ t => t
  | .slot _ t => t
  | .fallback _ t => t

/-- Claim C9's key-shape predicate, to recursion depth `d`: fallback keys
start with `^`, slot keys with `@`, children keys with neither, at every
node (intercept children are unconstrained in key but recursively
checked). -/
def goodShapeN : Nat → ManifestRoute → Bool
  | 0, _ => true
  | d + 1, m =>
    match m with
    | .node _ _ fb sl ch =>
      fb.all (fun kv => strStartsWith kv.1 "^") &&
      sl.all (fun kv => strStartsWith kv.1 "@" && goodShapeN d kv.2) &&
      ch.all (fun kv =>
        (!strStartsWith kv.1 "^" && !strStartsWith kv.1 "@") &&
        goodShapeN d kv.2)
    | .page _ _ _ _ => true
    | .intercept _ ch => ch.all (fun kv => goodShapeN d kv.2)
    | .pub _ _ => true

/-- `goodShapeN` at every depth. -/
def GoodShape (m : ManifestRoute) : Prop := ∀ d, goodShapeN d m = true

/- ### General-purpose list and string lemmas -/

/-- A character that takes part in no convention marker: a name made of
such characters parses as a plain segment and stays intact through every
path derivation. -/
def plainChar (c : Char) : Prop :=
  c ≠ '.' ∧ c ≠ '(' ∧ c ≠ ')' ∧ c ≠ '[' ∧ c ≠ ']' ∧ c ≠ '@' ∧
  c ≠ '*' ∧ c ≠ '_' ∧ c ≠ '?' ∧ c ≠ ':' ∧ c ≠ '/'

instance : DecidablePred plainChar := fun c => by
  unfold plainChar
  infer_instance

lemma takeWhile_append_all {p : Char → Bool} {l1 l2 : List Char}
    (h : ∀ c ∈ l1, p c) : (l1 ++ l2).takeWhile p = l1 ++ l2.takeWhile p := by
  induction l1 with
  | nil => simp
  | cons c rest ih =>
    simp only [List.cons_append, List.takeWhile_cons]
    rw [h c (by simp)]
    simp [ih (fun x hx => h x (by simp [hx]))]

lemma takeWhile_all {p : Char → Bool} {l : List Char}
    (h : ∀ c ∈ l, p c) : l.takeWhile p = l := by
  have := @takeWhile_append_all p l [] h
  simpa using this

lemma toList_append2 (a b : String) :
    (a ++ b).toList = a.toList ++ b.toList := by
  simp [String.toList, String.data_append]

lemma toList_append3 (a b c : String) :
    (a ++ b ++ c).toList = a.toList ++ b.toList ++ c.toList := by
  simp [String.toList, String.data_append]

lemma toList_ne_nil (name : String) (hne : name ≠ "") :
    name.toList ≠ [] := by
  intro h
  apply hne
  cases name with
  | mk data => simp [String.toList] at h; simp [h]

lemma takeWhile_nondot_concat {l : List Char} {a : Char} (ha : a ≠ '.')
    (h : ∀ c ∈ l, c ≠ '.') :
    (l ++ [a]).takeWhile (fun c => decide (c ≠ '.')) = l ++ [a] := by
  apply takeWhile_all
  intro c hc
  rcases List.mem_append.1 hc with hl | hl
  · simp [h c hl]
  · simp at hl; simp [hl, ha]


/- ### Parse results for the canonical filename forms (claim C5) -/

lemma parseRouteName_requiredForm (name : String) (src : String)
    (hne : name ≠ "") (hchars : ∀ c ∈ name.toList, plainChar c) :
    parseRouteName (.file ("[" ++ name ++ "]") src) =
      .ok (.segment name (some .required) none
        (.file ("[" ++ name ++ "]") src) none) := by
  have htl : ("[" ++ name ++ "]").toList = '[' :: (name.toList ++ [']']) := by
    rw [toList_append3]; rfl
  have hnonil := toList_ne_nil name hne
  obtain ⟨nc, ntl, hcons⟩ := List.exists_cons_of_ne_nil hnonil
  have hncplain : plainChar nc := hchars nc (by rw [hcons]; simp)
  have hgroup : parseGroupName ("[" ++ name ++ "]") = none := by
    simp [parseGroupName, htl]
  have hslot : parseSlotName ("[" ++ name ++ "]") = none := by
    simp [parseSlotName, htl]
  have hfb : parseFallbackName ("[" ++ name ++ "]") = none := by
    simp [parseFallbackName, htl]
  have hint : parseIntercept ("[" ++ name ++ "]") = none := by
    simp [parseIntercept, interceptAlt, stripPre, htl, List.isPrefixOf]
  have hopt : parseOptionalParamName ("[" ++ name ++ "]") = none := by
    simp only [parseOptionalParamName, htl]
    rw [show name.toList = nc :: ntl from hcons]
    simp [hncplain.2.2.2.1]
  have hrun := @takeWhile_nondot_concat name.toList ']'
    (by decide) (fun c hc => (hchars c hc).1)
  have hreq : parseRequiredParamName ("[" ++ name ++ "]") = some name := by
    simp only [parseRequiredParamName, htl]
    have hlen : 1 ≤ name.toList.length := by rw [hcons]; simp
    have hcond : (name.toList ++ [']']).getLast? = some ']' ∧
        2 ≤ (name.toList ++ [']']).length := by
      constructor
      · simp
      · simp only [List.length_append, List.length_cons, List.length_nil]
        omega
    simp only [hrun]
    rw [if_pos hcond, List.dropLast_concat, String.asString_toList]
    simp
  have hparam : parseParam ("[" ++ name ++ "]") = some (.required, name) := by
    simp [parseParam, hopt, hreq]
  have hseg : parseSegmentName ("[" ++ name ++ "]") =
      some ("[" ++ name ++ "]", none) := by
    simp only [parseSegmentName, htl]
    have hr : ('[' :: (name.toList ++ [']'])).takeWhile
        (fun c => decide (c ≠ '.' ∧ c ≠ '(' ∧ c ≠ ')')) =
        '[' :: (name.toList ++ [']']) := by
      apply takeWhile_all
      intro c hc
      simp only [List.mem_cons, List.mem_append] at hc
      rcases hc with h | h | h
      · simp [h]
      · have := hchars c h
        simp [this.1, this.2.1, this.2.2.1]
      · simp at h; simp [h]
    rw [hr]
    simp only [List.drop_length]
    split
    · rw [← htl, String.asString_toList]
      simp
    · simp_all
  unfold parseRouteName
  rw [if_neg]
  · simp only [FileTree.filename, hgroup, hslot, hfb, hint, hparam, hseg,
      Option.map]
  · simp [isLayout, FileTree.isDir, FileTree.filename, strStartsWith, htl]

lemma parseRouteName_optionalForm (name : String) (src : String) (hne : name ≠ "")
    (hchars : ∀ c ∈ name.toList, plainChar c) :
    parseRouteName (.file ("[[" ++ name ++ "]]") src) =
      .ok (.segment name (some .optional) none
        (.file ("[[" ++ name ++ "]]") src) none) := by
  have htl : ("[[" ++ name ++ "]]").toList =
      '[' :: '[' :: (name.toList ++ [']', ']']) := by
    rw [toList_append3]; rfl
  have hnonil := toList_ne_nil name hne
  have hgroup : parseGroupName ("[[" ++ name ++ "]]") = none := by
    simp [parseGroupName, htl]
  have hslot : parseSlotName ("[[" ++ name ++ "]]") = none := by
    simp [parseSlotName, htl]
  have hfb : parseFallbackName ("[[" ++ name ++ "]]") = none := by
    simp [parseFallbackName, htl]
  have hint : parseIntercept ("[[" ++ name ++ "]]") = none := by
    simp [parseIntercept, interceptAlt, stripPre, htl, List.isPrefixOf]
  have hsplit : name.toList ++ [']', ']'] = (name.toList ++ [']']) ++ [']'] := by
    simp
  have hrun : (name.toList ++ [']', ']']).takeWhile
      (fun c => decide (c ≠ '.')) = name.toList ++ [']', ']'] := by
    apply takeWhile_all
    intro c hc
    rcases List.mem_append.1 hc with hl | hl
    · simp [(hchars c hl).1]
    · simp at hl; simp [hl]
  have hlen : 1 ≤ name.toList.length := by
    rcases List.exists_cons_of_ne_nil hnonil with ⟨a, t, h⟩
    rw [h]; simp
  have hopt : parseOptionalParamName ("[[" ++ name ++ "]]") = some name := by
    simp only [parseOptionalParamName, htl]
    simp only [hrun]
    have hcond : (name.toList ++ [']', ']']).getLast? = some ']' ∧
        (name.toList ++ [']', ']']).dropLast.getLast? = some ']' ∧
        3 ≤ (name.toList ++ [']', ']']).length := by
      refine ⟨?_, ?_, ?_⟩
      · rw [hsplit]; simp
      · rw [hsplit, List.dropLast_concat]; simp
      · simp only [List.length_append, List.length_cons, List.length_nil]
        omega
    rw [if_pos (⟨trivial, trivial⟩ : True ∧ True), if_pos hcond, hsplit,
      List.dropLast_concat, List.dropLast_concat, String.asString_toList]
  have hseg : parseSegmentName ("[[" ++ name ++ "]]") =
      some ("[[" ++ name ++ "]]", none) := by
    simp only [parseSegmentName, htl]
    have hr : ('[' :: '[' :: (name.toList ++ [']', ']'])).takeWhile
        (fun c => decide (c ≠ '.' ∧ c ≠ '(' ∧ c ≠ ')')) =
        '[' :: '[' :: (name.toList ++ [']', ']']) := by
      apply takeWhile_all
      intro c hc
      simp only [List.mem_cons, List.mem_append] at hc
      rcases hc with h | h | h | h
      · simp [h]
      · simp [h]
      · have := hchars c h
        simp [this.1, this.2.1, this.2.2.1]
      · simp at h; simp [h]
    rw [hr]
    simp only [List.drop_length]
    split
    · rw [← htl, String.asString_toList]
      simp
    · simp_all
  have hparam : parseParam ("[[" ++ name ++ "]]") = some (.optional, name) := by
    simp [parseParam, hopt]
  unfold parseRouteName
  rw [if_neg]
  · simp only [FileTree.filename, hgroup, hslot, hfb, hint, hparam, hseg,
      Option.map]
  · simp [isLayout, FileTree.isDir, FileTree.filename, strStartsWith, htl]

lemma parseRouteName_catchAllForm (name : String) (src : String) (hne : name ≠ "")
    (hchars : ∀ c ∈ name.toList, plainChar c) :
    parseRouteName (.file ("[..." ++ name ++ "]") src) =
      .ok (.segment name (some .catchAll) none
        (.file ("[..." ++ name ++ "]") src)
        (some ("..." ++ name ++ "]"))) := by
  have htl : ("[..." ++ name ++ "]").toList =
      '[' :: '.' :: '.' :: '.' :: (name.toList ++ [']']) := by
    rw [toList_append3]; rfl
  have hext : ("..." ++ name ++ "]").toList =
      '.' :: '.' :: '.' :: (name.toList ++ [']']) := by
    rw [toList_append3]; rfl
  have hnonil := toList_ne_nil name hne
  have hlen : 1 ≤ name.toList.length := by
    rcases List.exists_cons_of_ne_nil hnonil with ⟨a, t, h⟩
    rw [h]; simp
  have hgroup : parseGroupName ("[..." ++ name ++ "]") = none := by
    simp [parseGroupName, htl]
  have hslot : parseSlotName ("[..." ++ name ++ "]") = none := by
    simp [parseSlotName, htl]
  have hfb : parseFallbackName ("[..." ++ name ++ "]") = none := by
    simp [parseFallbackName, htl]
  have hint : parseIntercept ("[..." ++ name ++ "]") = none := by
    simp [parseIntercept, interceptAlt, stripPre, htl, List.isPrefixOf]
  have hopt : parseOptionalParamName ("[..." ++ name ++ "]") = none := by
    simp [parseOptionalParamName, htl]
  have hreq : parseRequiredParamName ("[..." ++ name ++ "]") = none := by
    simp [parseRequiredParamName, htl]
  have hrun := @takeWhile_nondot_concat name.toList ']'
    (by decide) (fun c hc => (hchars c hc).1)
  have hca : parseCatchAllParamName ("[..." ++ name ++ "]") = some name := by
    simp only [parseCatchAllParamName, htl]
    simp only [hrun]
    have hcond : (name.toList ++ [']']).getLast? = some ']' ∧
        2 ≤ (name.toList ++ [']']).length := by
      constructor
      · simp
      · simp only [List.length_append, List.length_cons, List.length_nil]
        omega
    rw [if_pos ⟨trivial, trivial, trivial, trivial⟩, if_pos hcond, List.dropLast_concat,
      String.asString_toList]
  have hparam : parseParam ("[..." ++ name ++ "]") =
      some (.catchAll, name) := by
    simp [parseParam, hopt, hreq, hca]
  have hseg : parseSegmentName ("[..." ++ name ++ "]") =
      some ("[", some ("..." ++ name ++ "]")) := by
    simp only [parseSegmentName, htl]
    have hr : ('[' :: '.' :: '.' :: '.' :: (name.toList ++ [']'])).takeWhile
        (fun c => decide (c ≠ '.' ∧ c ≠ '(' ∧ c ≠ ')')) = ['['] := by
      simp [List.takeWhile_cons]
    rw [hr]
    have hdrop : List.drop (['['] : List Char).length
        ('[' :: '.' :: '.' :: '.' :: (name.toList ++ [']'])) =
        '.' :: '.' :: '.' :: (name.toList ++ [']']) := rfl
    rw [hdrop]
    rw [if_pos ⟨by simp, Or.inr rfl⟩, if_neg (by simp)]
    rw [← hext, String.asString_toList]
    rfl
  unfold parseRouteName
  rw [if_neg]
  · simp only [FileTree.filename, hgroup, hslot, hfb, hint, hparam, hseg,
      Option.map]
  · simp [isLayout, FileTree.isDir, FileTree.filename, strStartsWith, htl]

lemma parseRouteName_slotForm (name : String) (src : String) (hne : name ≠ "")
    (hchars : ∀ c ∈ name.toList, plainChar c) :
    parseRouteName (.file ("@" ++ name) src) =
      .ok (.slot name (.file ("@" ++ name) src)) := by
  have htl : ("@" ++ name).toList = '@' :: name.toList := by
    rw [toList_append2]; rfl
  have hnonil := toList_ne_nil name hne
  have hrun : name.toList.takeWhile (fun c => decide (c ≠ '.')) =
      name.toList :=
    takeWhile_all (fun c hc => by simp [(hchars c hc).1])
  have hgroup : parseGroupName ("@" ++ name) = none := by
    simp [parseGroupName, htl]
  have hslot : parseSlotName ("@" ++ name) = some name := by
    simp only [parseSlotName, htl]
    simp only [hrun]
    rw [if_pos trivial, if_pos hnonil, String.asString_toList]
  unfold parseRouteName
  rw [if_neg]
  · simp only [FileTree.filename, hgroup, hslot]
  · simp [isLayout, FileTree.isDir, FileTree.filename, strStartsWith, htl]

lemma parseRouteName_fallbackForm (name : String) (src : String) (hne : name ≠ "")
    (hchars : ∀ c ∈ name.toList, plainChar c) :
    parseRouteName (.file ("*" ++ name) src) =
      .ok (.fallback name (.file ("*" ++ name) src)) := by
  have htl : ("*" ++ name).toList = '*' :: name.toList := by
    rw [toList_append2]; rfl
  have hnonil := toList_ne_nil name hne
  have hrun : name.toList.takeWhile (fun c => decide (c ≠ '.')) =
      name.toList :=
    takeWhile_all (fun c hc => by simp [(hchars c hc).1])
  have hgroup : parseGroupName ("*" ++ name) = none := by
    simp [parseGroupName, htl]
  have hslot : parseSlotName ("*" ++ name) = none := by
    simp [parseSlotName, htl]
  have hfb : parseFallbackName ("*" ++ name) = some name := by
    simp only [parseFallbackName, htl]
    simp only [hrun]
    rw [if_pos trivial, if_pos hnonil, String.asString_toList]
  unfold parseRouteName
  rw [if_neg]
  · simp only [FileTree.filename, hgroup, hslot, hfb]
  · simp [isLayout, FileTree.isDir, FileTree.filename, strStartsWith, htl]

lemma parseRouteName_plainForm (name : String) (src : String) (hne : name ≠ "")
    (hchars : ∀ c ∈ name.toList, plainChar c) :
    parseRouteName (.file name src) =
      .ok (.segment name none none (.file name src) none) := by
  have hnonil := toList_ne_nil name hne
  obtain ⟨nc, ntl, hcons⟩ := List.exists_cons_of_ne_nil hnonil
  have hnc : plainChar nc := hchars nc (by rw [hcons]; simp)
  have hgroup : parseGroupName name = none := by
    unfold parseGroupName
    rw [hcons]
    simp [hnc.2.1]
  have hslot : parseSlotName name = none := by
    unfold parseSlotName
    rw [hcons]
    simp [hnc.2.2.2.2.2.1]
  have hfb : parseFallbackName name = none := by
    unfold parseFallbackName
    rw [hcons]
    simp [hnc.2.2.2.2.2.2.1]
  have hint : parseIntercept name = none := by
    unfold parseIntercept interceptAlt stripPre
    rw [hcons]
    simp [List.isPrefixOf, Ne.symm hnc.2.1]
  have hopt : parseOptionalParamName name = none := by
    unfold parseOptionalParamName
    rw [hcons]
    rcases ntl with _ | ⟨c2, t2⟩
    · rfl
    · simp [hnc.2.2.2.1]
  have hreq : parseRequiredParamName name = none := by
    unfold parseRequiredParamName
    rw [hcons]
    simp [hnc.2.2.2.1]
  have hca : parseCatchAllParamName name = none := by
    unfold parseCatchAllParamName
    rw [hcons]
    rcases ntl with _ | ⟨c2, t2⟩
    · rfl
    rcases t2 with _ | ⟨c3, t3⟩
    · rfl
    rcases t3 with _ | ⟨c4, t4⟩
    · rfl
    · simp [hnc.2.2.2.1]
  have hesc : parseEscapedRoute name = none := by
    unfold parseEscapedRoute
    have ha : name.toList.takeWhile (fun c => decide (c ≠ '(' ∧ c ≠ ')')) =
        name.toList :=
      takeWhile_all (fun c hc => by simp [(hchars c hc).2.1, (hchars c hc).2.2.1])
    simp only [ha, List.drop_length]
  have hseg : parseSegmentName name = some (name, none) := by
    unfold parseSegmentName
    have hr : name.toList.takeWhile
        (fun c => decide (c ≠ '.' ∧ c ≠ '(' ∧ c ≠ ')')) = name.toList :=
      takeWhile_all (fun c hc => by
        simp [(hchars c hc).1, (hchars c hc).2.1, (hchars c hc).2.2.1])
    simp only [hr, List.drop_length]
    rw [if_pos ⟨hnonil, Or.inl trivial⟩, String.asString_toList]
    simp
  have hparam : parseParam name = none := by
    simp [parseParam, hopt, hreq, hca]
  have hlay : isLayout (.file name src) = false := by
    unfold isLayout strStartsWith
    simp only [FileTree.isDir, FileTree.filename]
    rw [show ("_" : String).toList = ['_'] from rfl, hcons]
    simp [List.isPrefixOf, Ne.symm hnc.2.2.2.2.2.2.2.1]
  unfold parseRouteName
  rw [if_neg (by simp [hlay])]
  simp only [FileTree.filename, hgroup, hslot, hfb, hint, hparam, hesc,
    hseg, Option.map]

lemma segmentFromPath_requiredParam (name : String) (hne : name ≠ "")
    (hchars : ∀ c ∈ name.toList, plainChar c) :
    getSegmentFromPath ("/:" ++ name) = "*" := by
  have hnonil := toList_ne_nil name hne
  obtain ⟨init, a, hinit⟩ :=
    (List.eq_nil_or_concat' name.toList).resolve_left hnonil
  have ha : plainChar a := hchars a (by rw [hinit]; simp)
  have htl : ("/:" ++ name).toList = '/' :: ':' :: name.toList := by
    rw [toList_append2]; rfl
  have hne1 : ("/:" ++ name) ≠ "/" := by
    intro h
    have := congrArg String.toList h
    rw [htl] at this
    simp at this
  have hpre : strStartsWith ("/:" ++ name) "/:" = true := by
    unfold strStartsWith
    rw [htl, show ("/:" : String).toList = ['/', ':'] from rfl]
    simp [List.isPrefixOf]
  have hq : strEndsWith ("/:" ++ name) "?" = false := by
    unfold strEndsWith
    rw [htl, show ("?" : String).toList = ['?'] from rfl]
    simp only [List.isSuffixOf]
    rw [show ('/' :: ':' :: name.toList).reverse =
      a :: (init.reverse ++ [':', '/']) from by rw [hinit]; simp]
    simp [List.isPrefixOf, Ne.symm ha.2.2.2.2.2.2.2.2.1]
  unfold getSegmentFromPath
  rw [if_neg hne1, if_pos hpre, if_neg (by simp [hq])]

lemma segmentFromPath_optionalParam (name : String) (hne : name ≠ "")
    (hchars : ∀ c ∈ name.toList, plainChar c) :
    getSegmentFromPath ("/:" ++ name ++ "?") = "?" := by
  have hnonil := toList_ne_nil name hne
  have htl : ("/:" ++ name ++ "?").toList =
      '/' :: ':' :: (name.toList ++ ['?']) := by
    rw [toList_append3]; rfl
  have hne1 : ("/:" ++ name ++ "?") ≠ "/" := by
    intro h
    have := congrArg String.toList h
    rw [htl] at this
    simp at this
  have hpre : strStartsWith ("/:" ++ name ++ "?") "/:" = true := by
    unfold strStartsWith
    rw [htl, show ("/:" : String).toList = ['/', ':'] from rfl]
    simp [List.isPrefixOf]
  have hq : strEndsWith ("/:" ++ name ++ "?") "?" = true := by
    unfold strEndsWith
    rw [htl, show ("?" : String).toList = ['?'] from rfl]
    simp only [List.isSuffixOf]
    rw [show ('/' :: ':' :: (name.toList ++ ['?'])).reverse =
      '?' :: (name.toList.reverse ++ [':', '/']) from by simp]
    simp [List.isPrefixOf]
  unfold getSegmentFromPath
  rw [if_neg hne1, if_pos hpre, if_pos hq]

lemma segmentFromPath_catchAllParam (name : String) (hne : name ≠ "")
    (hchars : ∀ c ∈ name.toList, plainChar c) :
    getSegmentFromPath ("/*" ++ name) = "**" := by
  have htl : ("/*" ++ name).toList = '/' :: '*' :: name.toList := by
    rw [toList_append2]; rfl
  have hne1 : ("/*" ++ name) ≠ "/" := by
    intro h
    have := congrArg String.toList h
    rw [htl] at this
    simp at this
  have hpre : strStartsWith ("/*" ++ name) "/:" = false := by
    unfold strStartsWith
    rw [htl, show ("/:" : String).toList = ['/', ':'] from rfl]
    simp [List.isPrefixOf]
  have hpre2 : strStartsWith ("/*" ++ name) "/*" = true := by
    unfold strStartsWith
    rw [htl, show ("/*" : String).toList = ['/', '*'] from rfl]
    simp [List.isPrefixOf]
  unfold getSegmentFromPath
  rw [if_neg hne1, if_neg (by simp [hpre]), if_pos hpre2]

lemma segmentFromPath_plain (name : String) (hne : name ≠ "")
    (hchars : ∀ c ∈ name.toList, plainChar c) :
    getSegmentFromPath ("/" ++ name) = name := by
  have hnonil := toList_ne_nil name hne
  obtain ⟨nc, ntl, hcons⟩ := List.exists_cons_of_ne_nil hnonil
  have hnc : plainChar nc := hchars nc (by rw [hcons]; simp)
  have htl : ("/" ++ name).toList = '/' :: name.toList := by
    rw [toList_append2]; rfl
  have hne1 : ("/" ++ name) ≠ "/" := by
    intro h
    have := congrArg String.toList h
    rw [htl] at this
    simp at this
    exact hnonil this
  have hpre : strStartsWith ("/" ++ name) "/:" = false := by
    unfold strStartsWith
    rw [htl, show ("/:" : String).toList = ['/', ':'] from rfl, hcons]
    simp [List.isPrefixOf, Ne.symm hnc.2.2.2.2.2.2.2.2.2.1]
  have hpre2 : strStartsWith ("/" ++ name) "/*" = false := by
    unfold strStartsWith
    rw [htl, show ("/*" : String).toList = ['/', '*'] from rfl, hcons]
    simp [List.isPrefixOf, Ne.symm hnc.2.2.2.2.2.2.1]
  unfold getSegmentFromPath
  rw [if_neg hne1, if_neg (by simp [hpre]), if_neg (by simp [hpre2])]
  unfold strDropOne
  rw [htl]
  simp only [List.drop_succ_cons, List.drop_zero]
  exact String.asString_toList name

/-- C5: filename-to-path derivation.  For a name made of plain characters,
the filename `[name]` yields Route Config path `/:name`, `[[name]]` yields
`/:name?`, `[...name]` yields `/*name`; slot filenames `@name` yield
`/@name`, fallback filenames `*name` yield `/^name`, and plain filenames
`name` yield `/name`.  In the manifest the three parameter paths become
the reserved segment markers `*`, `?`, `**` respectively, and any other
non-root path becomes the path with its leading slash stripped. -/
theorem c5_filename_path_derivation (name src : String) (hne : name ≠ "")
    (hchars : ∀ c ∈ name.toList, plainChar c) :
    ((parseRouteName (.file ("[" ++ name ++ "]") src)).map getRoutePath =
      .ok (some ("/:" ++ name))) ∧
    ((parseRouteName (.file ("[[" ++ name ++ "]]") src)).map getRoutePath =
      .ok (some ("/:" ++ name ++ "?"))) ∧
    ((parseRouteName (.file ("[..." ++ name ++ "]") src)).map getRoutePath =
      .ok (some ("/*" ++ name))) ∧
    ((parseRouteName (.file ("@" ++ name) src)).map getRoutePath =
      .ok (some ("/@" ++ name))) ∧
    ((parseRouteName (.file ("*" ++ name) src)).map getRoutePath =
      .ok (some ("/^" ++ name))) ∧
    ((parseRouteName (.file name src)).map getRoutePath =
      .ok (some ("/" ++ name))) ∧
    getSegmentFromPath ("/:" ++ name) = "*" ∧
    getSegmentFromPath ("/:" ++ name ++ "?") = "?" ∧
    getSegmentFromPath ("/*" ++ name) = "**" ∧
    getSegmentFromPath ("/" ++ name) = name := by
  refine ⟨?_, ?_, ?_, ?_, ?_, ?_, ?_, ?_, ?_, ?_⟩
  · rw [parseRouteName_requiredForm name src hne hchars]; rfl
  · rw [parseRouteName_optionalForm name src hne hchars]; rfl
  · rw [parseRouteName_catchAllForm name src hne hchars]; rfl
  · rw [parseRouteName_slotForm name src hne hchars]; rfl
  · rw [parseRouteName_fallbackForm name src hne hchars]; rfl
  · rw [parseRouteName_plainForm name src hne hchars]; rfl
  · exact segmentFromPath_requiredParam name hne hchars
  · exact segmentFromPath_optionalParam name hne hchars
  · exact segmentFromPath_catchAllParam name hne hchars
  · exact segmentFromPath_plain name hne hchars

/-- Witness for C5 at the concrete name `id`. -/
theorem c5_filename_path_derivation_witness :
    ((parseRouteName (.file ("[" ++ "id" ++ "]") "x")).map getRoutePath =
      .ok (some ("/:" ++ "id"))) ∧
    ((parseRouteName (.file ("[[" ++ "id" ++ "]]") "x")).map getRoutePath =
      .ok (some ("/:" ++ "id" ++ "?"))) ∧
    ((parseRouteName (.file ("[..." ++ "id" ++ "]") "x")).map getRoutePath =
      .ok (some ("/*" ++ "id"))) ∧
    ((parseRouteName (.file ("@" ++ "id") "x")).map getRoutePath =
      .ok (some ("/@" ++ "id"))) ∧
    ((parseRouteName (.file ("*" ++ "id") "x")).map getRoutePath =
      .ok (some ("/^" ++ "id"))) ∧
    ((parseRouteName (.file "id" "x")).map getRoutePath =
      .ok (some ("/" ++ "id"))) ∧
    getSegmentFromPath ("/:" ++ "id") = "*" ∧
    getSegmentFromPath ("/:" ++ "id" ++ "?") = "?" ∧
    getSegmentFromPath ("/*" ++ "id") = "**" ∧
    getSegmentFromPath ("/" ++ "id") = "id" :=
  c5_filename_path_derivation "id" "x" (by decide) (by decide)


/-- C4: a route config declaring an intercept kind is rendered as an
Intercept node whose base is the accumulated segments with slot segments
(starting with `@`) filtered out and 0/1/2 entries trimmed from the end
for same-level/one-up/two-up kinds, or cleared for the root kind, and
whose children map holds, under the config segment key, the manifest of
the same config with the intercept flag removed, built in the same route
state.  In particular segments `["feed","post"]` give one-up base
`["feed"]` and root base `[]`. -/
theorem c4_intercept_rendering (fuel : Nat) (config : RouteConfig)
    (state : RouteState) (kind : RouteConfigInterceptType)
    (hk : config.intercept = some kind) :
    (getManifestRoutesFromConfig (fuel + 2) config state =
      (getManifestRoutesFromConfig fuel config.removeIntercept state).map
        (fun m => .intercept
          (match kind with
            | .same => state.segments.filter (fun s => !strStartsWith s "@")
            | .oneUp =>
              (state.segments.filter (fun s => !strStartsWith s "@")).dropLast
            | .twoUp =>
              ((state.segments.filter
                (fun s => !strStartsWith s "@")).dropLast).dropLast
            | .root => [])
          [(getSegmentFromPath config.path, m)])) ∧
    getManifestRoutesFromConfig 4 (.page (some .oneUp) "/photo" none "f")
        ⟨["feed", "post"], []⟩ =
      .ok (.intercept ["feed"]
        [("photo", .page "photo" none [] "feed/post/photo.html")]) ∧
    getManifestRoutesFromConfig 4 (.page (some .root) "/photo" none "f")
        ⟨["feed", "post"], []⟩ =
      .ok (.intercept []
        [("photo", .page "photo" none [] "feed/post/photo.html")]) := by
  refine ⟨?_, by rfl, by rfl⟩
  show getManifestRoutesFromConfig (fuel + 1 + 1) config state = _
  simp only [getManifestRoutesFromConfig, getManifestRouteIntercept, hk]
  cases hrec : getManifestRoutesFromConfig fuel config.removeIntercept state with
  | ok m =>
    cases kind <;>
      simp [hrec, Except.map, Except.bind, bind, pure]
  | error e =>
    cases kind <;>
      simp [hrec, Except.map, Except.bind, bind, pure]

/-- Witness for C4: a one-up intercept page under segments
`["feed","post"]`. -/
theorem c4_intercept_rendering_witness :
    (getManifestRoutesFromConfig 4 (.page (some .oneUp) "/photo" none "f")
        ⟨["feed", "post"], []⟩ =
      (getManifestRoutesFromConfig 2 (.page none "/photo" none "f")
          ⟨["feed", "post"], []⟩).map
        (fun m => .intercept ["feed"] [("photo", m)])) ∧
    getManifestRoutesFromConfig 4 (.page (some .oneUp) "/photo" none "f")
        ⟨["feed", "post"], []⟩ =
      .ok (.intercept ["feed"]
        [("photo", .page "photo" none [] "feed/post/photo.html")]) ∧
    getManifestRoutesFromConfig 4 (.page (some .root) "/photo" none "f")
        ⟨["feed", "post"], []⟩ =
      .ok (.intercept []
        [("photo", .page "photo" none [] "feed/post/photo.html")]) :=
  c4_intercept_rendering 2 (.page (some .oneUp) "/photo" none "f")
    ⟨["feed", "post"], []⟩ .oneUp rfl


/-- Two sibling page children mapping to one URL-segment key make the
node builder merge them, which is fatal for pages. -/
lemma node_two_pages_same_segment_error (fuel : Nat) (st : RouteState)
    (path p1 p2 : String) (param layout : Option String)
    (scripts : List String) (pa pb : Option String) (f1 f2 : String)
    (h1 : p1 ≠ "/") (h2 : p2 ≠ "/")
    (hseg : getSegmentFromPath p1 = getSegmentFromPath p2)
    (hfb : strStartsWith (getSegmentFromPath p1) "^" = false)
    (hsl : strStartsWith (getSegmentFromPath p1) "@" = false) :
    getManifestRoutesFromConfig (fuel + 8)
      (.node none path param layout scripts
        [.page none p1 pa f1, .page none p2 pb f2]) st =
      .error "cannot merge page routes" := by
  show getManifestRoutesFromConfig (fuel + 7 + 1) _ st = _
  simp only [getManifestRoutesFromConfig, getManifestRouteIntercept,
    RouteConfig.intercept, getManifestRoutesFromNode, manifestChildren,
    RouteConfig.path, isRouteConfigPage, getManifestRoutesFromPage,
    Except.bind, bind, pure, alistLookup, alistSet, mergeManifestRoutes,
    ← hseg]
  simp [h1, h2, hfb, hsl]

/-- C10: required, optional, and catch-all parameter paths map to the
fixed reserved keys `*`, `?`, `**` regardless of the parameter name, so
two sibling param pages of the same kind (such as `/:a` and `/:b`) get
the same manifest key and are handed to the merge rule, which raises the
cannot-merge-page error instead of keeping them as distinct routes. -/
theorem c10_param_name_erasure (fuel : Nat) (st : RouteState)
    (a b path : String) (param layout : Option String)
    (scripts : List String) (pa pb : Option String) (f1 f2 : String)
    (hnea : a ≠ "") (hneb : b ≠ "")
    (hca : ∀ c ∈ a.toList, plainChar c) (hcb : ∀ c ∈ b.toList, plainChar c) :
    (getSegmentFromPath ("/:" ++ a) = "*" ∧
      getSegmentFromPath ("/:" ++ b) = "*") ∧
    (getSegmentFromPath ("/:" ++ a ++ "?") = "?" ∧
      getSegmentFromPath ("/:" ++ b ++ "?") = "?") ∧
    (getSegmentFromPath ("/*" ++ a) = "**" ∧
      getSegmentFromPath ("/*" ++ b) = "**") ∧
    getManifestRoutesFromConfig (fuel + 8)
      (.node none path param layout scripts
        [.page none ("/:" ++ a) pa f1, .page none ("/:" ++ b) pb f2]) st =
      .error "cannot merge page routes" := by
  have hsa := segmentFromPath_requiredParam a hnea hca
  have hsb := segmentFromPath_requiredParam b hneb hcb
  refine ⟨⟨hsa, hsb⟩,
    ⟨segmentFromPath_optionalParam a hnea hca,
      segmentFromPath_optionalParam b hneb hcb⟩,
    ⟨segmentFromPath_catchAllParam a hnea hca,
      segmentFromPath_catchAllParam b hneb hcb⟩, ?_⟩
  have hne1 : ("/:" ++ a) ≠ "/" := by
    intro h
    have := congrArg String.toList h
    rw [toList_append2] at this
    simp [String.toList] at this
  have hne2 : ("/:" ++ b) ≠ "/" := by
    intro h
    have := congrArg String.toList h
    rw [toList_append2] at this
    simp [String.toList] at this
  exact node_two_pages_same_segment_error fuel st path ("/:" ++ a)
    ("/:" ++ b) param layout scripts pa pb f1 f2 hne1 hne2
    (by rw [hsa, hsb]) (by rw [hsa]; rfl) (by rw [hsa]; rfl)

/-- Witness for C10 with parameter names `a` and `b`. -/
theorem c10_param_name_erasure_witness :
    (getSegmentFromPath ("/:" ++ "a") = "*" ∧
      getSegmentFromPath ("/:" ++ "b") = "*") ∧
    (getSegmentFromPath ("/:" ++ "a" ++ "?") = "?" ∧
      getSegmentFromPath ("/:" ++ "b" ++ "?") = "?") ∧
    (getSegmentFromPath ("/*" ++ "a") = "**" ∧
      getSegmentFromPath ("/*" ++ "b") = "**") ∧
    getManifestRoutesFromConfig (0 + 8)
      (.node none "/x" none none []
        [.page none ("/:" ++ "a") (some "a") "f1",
          .page none ("/:" ++ "b") (some "b") "f2"]) RouteState.empty =
      .error "cannot merge page routes" :=
  c10_param_name_erasure 0 RouteState.empty "a" "b" "/x" none none []
    (some "a") (some "b") "f1" "f2" (by decide) (by decide) (by decide)
    (by decide)


/-- C3 (amended): a Group-classified file reaching the point of being
converted into a Route Config node aborts with the fatal InvalidRoutePath
error ("invalid route path"); the UnexpectedGroup error is raised when a
Group-classified directory reaches the directory builder (for example a
group-named root directory). -/
theorem c3_group_file_invalid_route_path (fuel : Nat)
    (name fn fsrc : String) :
    (getRouteConfigFromFileTree (fuel + 1) (.file fn fsrc)
        (some (.group name (.file fn fsrc))) =
      .error "invalid route path") ∧
    (getRouteConfigFromDirTree (fuel + 2) (.dir fn fsrc [])
        (some (.group name (.file fn fsrc))) true =
      .error "unexpected group") := by
  constructor
  · rfl
  · rfl

/-- C3 counterexample: a group file inside a slot directory reaches
file-tree conversion and the build aborts with "invalid route path",
which is not the "unexpected group" error the claim names. -/
theorem c3_counterexample :
    getRouteConfigFromDirTree 9 (.dir "@s" "s" [.file "(g).tsx" "g"])
        none false =
      .error "invalid route path" ∧
    ("invalid route path" : String) ≠ "unexpected group" :=
  ⟨rfl, by decide⟩


/-- C7 counterexample: for the §8 tree, `children["about"]` of the
compiled manifest is a Node (carrying no partial at all), not a page with
partial `"about.html"` as the claim states. -/
theorem c7_counterexample :
    ((getRouteConfig c7Tree).bind getManifestRoutes = .ok c7Manifest) ∧
    alistLookup [("about", c7AboutNode), ("contact", c7ContactNode)]
      "about" = some c7AboutNode ∧
    manifestPartial c7AboutNode = none ∧
    (none : Option String) ≠ some "about.html" :=
  ⟨by rfl, by rfl, by rfl, by decide⟩

/-- C7 (amended): compiling the §8 tree yields a manifest whose
`index.partial` is `"%.html"`, whose `children["about"]` is a node whose
`children["page"].partial` is `"about/page.html"`, whose
`children["contact"]` is a node (the group elided) whose
`children["page"].partial` is `"contact/page.html"`, and whose root
layout list `["_layout.html"]` is inherited by the index and every
descendant page; in general a page child's partial is the join of the
accumulated segments with `<segment>.html` and its layouts are the layout
list accumulated at that point of the descent. -/
theorem c7_end_to_end :
    ((getRouteConfig c7Tree).bind getManifestRoutes = .ok c7Manifest) ∧
    (c7Manifest = .node "/" (some ⟨["_layout.html"], "%.html"⟩) [] []
      [("about", c7AboutNode), ("contact", c7ContactNode)]) ∧
    (∀ (fuel : Nat) (path : String) (param : Option String)
      (file : String) (st : RouteState),
      getManifestRoutesFromConfig (fuel + 2) (.page none path param file)
          st =
        .ok (.page (getSegmentFromPath path) param st.layouts
          (joinSlash (st.segments ++ [getSegmentFromPath path ++
            ".html"])))) := by
  refine ⟨by rfl, by rfl, ?_⟩
  intro fuel path param file st
  rfl


/- ### Index-candidate detection and the directory scan (claim C2) -/

lemma parseRouteName_of_layout {t : FileTree} (h : isLayout t = true) :
    parseRouteName t = .error "unexpected layout" := by
  unfold parseRouteName
  rw [if_pos h]

lemma isIndex_iff (child : FileTree) : isIndex child = .ok true ↔
    (child.isDir = false ∧
      ((∃ p i t ext, parseRouteName child =
          .ok (.segment "index" p i t ext)) ∨
        (∃ n t, parseRouteName child = .ok (.group n t)))) := by
  unfold isIndex
  by_cases hd : child.isDir
  · simp [hd]
  · simp only [hd, Bool.false_eq_true, if_false]
    by_cases hl : isLayout child
    · simp [hl, parseRouteName_of_layout hl]
    · simp only [hl, Bool.false_eq_true, if_false]
      cases hp : parseRouteName child with
      | error e => simp [hp, Except.bind, bind]
      | ok rn =>
        cases rn with
        | segment n p i t ext =>
          simp [hp, Except.bind, bind]
        | group n t =>
          simp [hp, Except.bind, bind]
        | slot n t =>
          simp [hp, Except.bind, bind]
        | fallback n t =>
          simp [hp, Except.bind, bind]

lemma findIndex_some_then_candidate (l : List FileTree) :
    ∀ (acc : Option FileTree) (c : FileTree) (l' : List FileTree),
    acc.isSome → (∀ x ∈ l, ∃ b, isIndex x = .ok b) →
    isIndex c = .ok true →
    findIndexTree acc (l ++ (c :: l')) = .error "multiple index routes" := by
  induction l with
  | nil =>
    intro acc c l' hacc hall hc
    obtain ⟨v, hv⟩ := Option.isSome_iff_exists.1 hacc
    rw [List.nil_append]
    simp [findIndexTree, hc, hv, Except.bind, bind]
  | cons y rest ih =>
    intro acc c l' hacc hall hc
    obtain ⟨v, hv⟩ := Option.isSome_iff_exists.1 hacc
    obtain ⟨b, hb⟩ := hall y (by simp)
    rw [List.cons_append]
    cases b with
    | true => simp [findIndexTree, hb, hv, Except.bind, bind]
    | false =>
      have step : findIndexTree acc (y :: (rest ++ (c :: l'))) =
          findIndexTree acc (rest ++ (c :: l')) := by
        simp [findIndexTree, hb, Except.bind, bind]
      rw [step]
      exact ih acc c l' hacc (fun x hx => hall x (by simp [hx])) hc

lemma findIndex_two_candidates (l1 : List FileTree) :
    ∀ (acc : Option FileTree) (c1 : FileTree) (l2 : List FileTree)
      (c2 : FileTree) (l3 : List FileTree),
    (∀ x ∈ l1, ∃ b, isIndex x = .ok b) →
    isIndex c1 = .ok true →
    (∀ x ∈ l2, ∃ b, isIndex x = .ok b) →
    isIndex c2 = .ok true →
    findIndexTree acc (l1 ++ (c1 :: (l2 ++ (c2 :: l3)))) =
      .error "multiple index routes" := by
  induction l1 with
  | nil =>
    intro acc c1 l2 c2 l3 h1 hc1 h2 hc2
    rw [List.nil_append]
    cases acc with
    | some v => simp [findIndexTree, hc1, Except.bind, bind]
    | none =>
      have step : findIndexTree none (c1 :: (l2 ++ (c2 :: l3))) =
          findIndexTree (some c1) (l2 ++ (c2 :: l3)) := by
        simp [findIndexTree, hc1, Except.bind, bind]
      rw [step]
      exact findIndex_some_then_candidate l2 (some c1) c2 l3 rfl h2 hc2
  | cons y rest ih =>
    intro acc c1 l2 c2 l3 h1 hc1 h2 hc2
    obtain ⟨b, hb⟩ := h1 y (by simp)
    rw [List.cons_append]
    cases b with
    | true =>
      cases acc with
      | some v => simp [findIndexTree, hb, Except.bind, bind]
      | none =>
        have step :
            findIndexTree none (y :: (rest ++ (c1 :: (l2 ++ (c2 :: l3))))) =
            findIndexTree (some y) (rest ++ (c1 :: (l2 ++ (c2 :: l3)))) := by
          simp [findIndexTree, hb, Except.bind, bind]
        rw [step]
        rw [show rest ++ (c1 :: (l2 ++ (c2 :: l3))) =
          (rest ++ (c1 :: l2)) ++ (c2 :: l3) by simp]
        exact findIndex_some_then_candidate (rest ++ (c1 :: l2)) (some y) c2 l3
          rfl (by
            intro x hx
            rcases List.mem_append.1 hx with h | h
            · exact h1 x (by simp [h])
            · rcases List.mem_cons.1 h with h | h
              · exact ⟨true, h ▸ hc1⟩
              · exact h2 x h) hc2
    | false =>
      have step :
          findIndexTree acc (y :: (rest ++ (c1 :: (l2 ++ (c2 :: l3))))) =
          findIndexTree acc (rest ++ (c1 :: (l2 ++ (c2 :: l3)))) := by
        simp [findIndexTree, hb, Except.bind, bind]
      rw [step]
      exact ih acc c1 l2 c2 l3 (fun x hx => h1 x (by simp [hx])) hc1 h2 hc2

lemma findIndex_unique_candidate (l1 : List FileTree) :
    ∀ (it : FileTree) (l2 : List FileTree),
    (∀ x ∈ l1, isIndex x = .ok false) →
    isIndex it = .ok true →
    (∀ x ∈ l2, isIndex x = .ok false) →
    findIndexTree none (l1 ++ (it :: l2)) = .ok (some it) := by
  have tail : ∀ (l : List FileTree) (acc : Option FileTree),
      (∀ x ∈ l, isIndex x = .ok false) → findIndexTree acc l = .ok acc := by
    intro l
    induction l with
    | nil => intro acc _; rfl
    | cons y rest ih =>
      intro acc hall
      have hy := hall y (by simp)
      have step : findIndexTree acc (y :: rest) = findIndexTree acc rest := by
        simp [findIndexTree, hy, Except.bind, bind]
      rw [step]
      exact ih acc (fun x hx => hall x (by simp [hx]))
  induction l1 with
  | nil =>
    intro it l2 _ hit h2
    rw [List.nil_append]
    have step : findIndexTree none (it :: l2) =
        findIndexTree (some it) l2 := by
      simp [findIndexTree, hit, Except.bind, bind]
    rw [step]
    exact tail l2 (some it) h2
  | cons y rest ih =>
    intro it l2 h1 hit h2
    have hy := h1 y (by simp)
    rw [List.cons_append]
    have step : findIndexTree none (y :: (rest ++ (it :: l2))) =
        findIndexTree none (rest ++ (it :: l2)) := by
      simp [findIndexTree, hy, Except.bind, bind]
    rw [step]
    exact ih it l2 (fun x hx => h1 x (by simp [hx])) hit h2

lemma buildDir_scan_propagates (fuel : Nat) (fn src : String)
    (children : List FileTree) (nm : String)
    (p : Option RouteConfigParamType)
    (i : Option RouteConfigInterceptType) (t : FileTree)
    (ext : Option String) (isRoot : Bool) (e : String)
    (hscan : findIndexTree none children = .error e) :
    getRouteConfigFromDirTree (fuel + 1) (.dir fn src children)
      (some (.segment nm p i t ext)) isRoot = .error e := by
  simp [getRouteConfigFromDirTree, FileTree.childrenD, hscan,
    Except.bind, bind, pure, Except.pure]

lemma buildDir_index_first (fuel : Nat) (fn src : String)
    (children : List FileTree) (nm : String)
    (p : Option RouteConfigParamType)
    (i : Option RouteConfigInterceptType) (t : FileTree)
    (ext : Option String) (isRoot : Bool) (it : FileTree)
    (cfg : RouteConfig)
    (hscan : findIndexTree none children = .ok (some it))
    (hok : getRouteConfigFromDirTree (fuel + 1) (.dir fn src children)
      (some (.segment nm p i t ext)) isRoot = .ok cfg) :
    ∃ icpt path param layout scripts rest,
      cfg = .node icpt path param layout scripts
        ((.page none "/" none it.src) :: rest) := by
  revert hok
  simp only [getRouteConfigFromDirTree, FileTree.childrenD, hscan,
    Except.bind, bind, pure, Except.pure, Option.map,
    List.singleton_append]
  cases hloop : buildConfigChildren fuel (some it.filename) none [] []
      children with
  | error e => simp
  | ok r =>
    obtain ⟨lay, scr, rest⟩ := r
    cases isRoot with
    | true =>
      simp only [if_true]
      intro hok
      injection hok with hok
      exact ⟨i, "/", getParamName (.segment nm p i t ext), lay, scr, rest,
        hok.symm⟩
    | false =>
      simp only [Bool.false_eq_true, if_false, getRoutePath]
      intro hok
      injection hok with hok
      exact ⟨i, getSegmentPath nm p, getParamName (.segment nm p i t ext),
        lay, scr, rest, hok.symm⟩

/-- C2 (amended): a direct child is an index candidate exactly when it is
a file whose parsed name is a segment named exactly `index` (with any
parameter or intercept modifiers) or a Group-classified file; in a
directory whose own parsed name is a segment, two candidates among the
children make the build fail with the MultipleIndexRoutes error
("multiple index routes"), and a unique candidate puts a synthetic Page
with path `/` and the candidate's source path first in the resulting
node's children. -/
theorem c2_index_detection :
    (∀ child : FileTree, isIndex child = .ok true ↔
      (child.isDir = false ∧
        ((∃ p i t ext, parseRouteName child =
            .ok (.segment "index" p i t ext)) ∨
          (∃ n t, parseRouteName child = .ok (.group n t))))) ∧
    (∀ (fuel : Nat) (fn src nm : String) (p : Option RouteConfigParamType)
      (i : Option RouteConfigInterceptType) (t : FileTree)
      (ext : Option String) (isRoot : Bool) (l1 : List FileTree)
      (c1 : FileTree) (l2 : List FileTree) (c2 : FileTree)
      (l3 : List FileTree),
      (∀ x ∈ l1, ∃ b, isIndex x = .ok b) → isIndex c1 = .ok true →
      (∀ x ∈ l2, ∃ b, isIndex x = .ok b) → isIndex c2 = .ok true →
      getRouteConfigFromDirTree (fuel + 1)
        (.dir fn src (l1 ++ (c1 :: (l2 ++ (c2 :: l3)))))
        (some (.segment nm p i t ext)) isRoot =
        .error "multiple index routes") ∧
    (∀ (fuel : Nat) (fn src nm : String) (p : Option RouteConfigParamType)
      (i : Option RouteConfigInterceptType) (t : FileTree)
      (ext : Option String) (isRoot : Bool) (it : FileTree)
      (l1 l2 : List FileTree) (cfg : RouteConfig),
      (∀ x ∈ l1, isIndex x = .ok false) → isIndex it = .ok true →
      (∀ x ∈ l2, isIndex x = .ok false) →
      getRouteConfigFromDirTree (fuel + 1)
        (.dir fn src (l1 ++ (it :: l2)))
        (some (.segment nm p i t ext)) isRoot = .ok cfg →
      ∃ icpt path param layout scripts rest,
        cfg = .node icpt path param layout scripts
          ((.page none "/" none it.src) :: rest)) := by
  refine ⟨isIndex_iff, ?_, ?_⟩
  · intro fuel fn src nm p i t ext isRoot l1 c1 l2 c2 l3 h1 hc1 h2 hc2
    exact buildDir_scan_propagates fuel fn src _ nm p i t ext isRoot _
      (findIndex_two_candidates l1 none c1 l2 c2 l3 h1 hc1 h2 hc2)
  · intro fuel fn src nm p i t ext isRoot it l1 l2 cfg h1 hit h2 hok
    exact buildDir_index_first fuel fn src _ nm p i t ext isRoot it cfg
      (findIndex_unique_candidate l1 it l2 h1 hit h2) hok

/-- Witness for C2: two index files in a segment directory fail with
"multiple index routes"; a unique index file yields a node whose first
child is the synthetic `/` page. -/
theorem c2_index_detection_witness :
    (isIndex (.file "index.tsx" "a") = .ok true ↔
      ((FileTree.file "index.tsx" "a").isDir = false ∧
        ((∃ p i t ext, parseRouteName (.file "index.tsx" "a") =
            .ok (.segment "index" p i t ext)) ∨
          (∃ n t, parseRouteName (.file "index.tsx" "a") =
            .ok (.group n t))))) ∧
    getRouteConfigFromDirTree 19
      (.dir "r" "s" ([] ++ ((.file "index.tsx" "a") ::
        ([] ++ ((.file "index.ts" "b") :: [])))))
      (some (.segment "r" none none (.file "z" "z") none)) false =
      .error "multiple index routes" ∧
    ∃ icpt path param layout scripts rest,
      (RouteConfig.node none "/r" none none []
          [.page none "/" none "a", .page none "/about" none "b"]) =
        .node icpt path param layout scripts
          ((.page none "/" none (FileTree.file "index.tsx" "a").src) ::
            rest) := by
  refine ⟨c2_index_detection.1 _, ?_, ?_⟩
  · exact c2_index_detection.2.1 18 "r" "s" "r" none none (.file "z" "z")
      none false [] (.file "index.tsx" "a") [] (.file "index.ts" "b") []
      (by simp) (by rfl) (by simp) (by rfl)
  · exact c2_index_detection.2.2 18 "r" "s" "r" none none (.file "z" "z")
      none false (.file "index.tsx" "a") [] [.file "about.tsx" "b"]
      (.node none "/r" none none []
        [.page none "/" none "a", .page none "/about" none "b"])
      (by simp) (by rfl) (by intro x hx; simp at hx; rw [hx]; rfl)
      (by rfl)

/-- C2 counterexample: the file `[index].tsx` parses as a required-param
segment named `index` — not a plain segment — yet is an index candidate;
and a slot directory containing two index candidates builds successfully
instead of raising MultipleIndexRoutes. -/
theorem c2_counterexample :
    isIndex (.file "[index].tsx" "s") = .ok true ∧
    parseRouteName (.file "[index].tsx" "s") =
      .ok (.segment "index" (some .required) none
        (.file "[index].tsx" "s") (some ".tsx")) ∧
    some RouteConfigParamType.required ≠
      (none : Option RouteConfigParamType) ∧
    getRouteConfigFromDirTree 20
      (.dir "@s" "s" [.file "index.tsx" "a", .file "index.ts" "b"])
      none false =
      .ok (.node none "/@s" none none []
        [.page none "/index" none "a", .page none "/index" none "b"]) :=
  ⟨by rfl, by rfl, by decide, by rfl⟩


/- ### The merge rule (claim C1) -/

lemma alistLookup_set {α : Type} (a : List (String × α)) (k k' : String)
    (v : α) :
    alistLookup (alistSet a k v) k' =
      if k' = k then some v else alistLookup a k' := by
  induction a with
  | nil =>
    by_cases h : k' = k
    · simp [alistSet, alistLookup, h]
    · simp [alistSet, alistLookup, h, Ne.symm h]
  | cons e rest ih =>
    obtain ⟨k0, v0⟩ := e
    by_cases h0 : k0 = k
    · subst h0
      by_cases h : k' = k0
      · subst h
        simp [alistSet, alistLookup]
      · simp [alistSet, alistLookup, h, Ne.symm h]
    · by_cases h : k0 = k'
      · subst h
        simp [alistSet, alistLookup, h0, Ne.symm h0]
      · simp [alistSet, alistLookup, h0, h, ih]

lemma alistSet_append_of_lookup_none {α : Type} (a : List (String × α))
    (k : String) (v : α) (h : alistLookup a k = none) :
    alistSet a k v = a ++ [(k, v)] := by
  induction a with
  | nil => rfl
  | cons e rest ih =>
    obtain ⟨k0, v0⟩ := e
    simp only [alistLookup] at h
    by_cases h0 : k0 = k
    · simp [h0] at h
    · simp only [alistSet, if_neg h0, List.cons_append]
      rw [ih (by simpa [h0] using h)]

lemma mergeFallbackEntries_ok (entries : List (String × ManifestRouteFallback)) :
    ∀ (acc out : List (String × ManifestRouteFallback)),
    mergeFallbackEntries acc entries = .ok out → out = acc ++ entries := by
  induction entries with
  | nil =>
    intro acc out h
    simp only [mergeFallbackEntries] at h
    injection h with h
    simp [h.symm]
  | cons e rest ih =>
    intro acc out h
    obtain ⟨k, v⟩ := e
    simp only [mergeFallbackEntries] at h
    cases hl : alistLookup acc k with
    | some _ => rw [hl] at h; cases h
    | none =>
      rw [hl] at h
      have := ih (alistSet acc k v) out h
      rw [alistSet_append_of_lookup_none acc k v hl] at this
      simp [this]

lemma mergeSlotEntries_ok (entries : List (String × ManifestRoute)) :
    ∀ (acc out : List (String × ManifestRoute)),
    mergeSlotEntries acc entries = .ok out → out = acc ++ entries := by
  induction entries with
  | nil =>
    intro acc out h
    simp only [mergeSlotEntries] at h
    injection h with h
    simp [h.symm]
  | cons e rest ih =>
    intro acc out h
    obtain ⟨k, v⟩ := e
    simp only [mergeSlotEntries] at h
    cases hl : alistLookup acc k with
    | some _ => rw [hl] at h; cases h
    | none =>
      rw [hl] at h
      have := ih (alistSet acc k v) out h
      rw [alistSet_append_of_lookup_none acc k v hl] at this
      simp [this]

lemma mergeFallbackEntries_dup (entries : List (String × ManifestRouteFallback)) :
    ∀ (acc : List (String × ManifestRouteFallback)) (k : String)
      (v : ManifestRouteFallback) (v' : ManifestRouteFallback),
    (k, v) ∈ entries → alistLookup acc k = some v' →
    mergeFallbackEntries acc entries = .error "cannot merge fallback routes" := by
  induction entries with
  | nil => intro acc k v v' h; cases h
  | cons e rest ih =>
    intro acc k v v' hmem hacc
    obtain ⟨k0, v0⟩ := e
    simp only [mergeFallbackEntries]
    cases hl : alistLookup acc k0 with
    | some _ => rfl
    | none =>
      rcases List.mem_cons.1 hmem with h | h
      · injection h with h1 h2
        subst h1
        rw [hacc] at hl
        cases hl
      · refine ih (alistSet acc k0 v0) k v v' h ?_
        rw [alistLookup_set]
        by_cases hk : k = k0
        · subst hk; rw [hacc] at hl; cases hl
        · rw [if_neg hk]; exact hacc

lemma mergeSlotEntries_dup (entries : List (String × ManifestRoute)) :
    ∀ (acc : List (String × ManifestRoute)) (k : String)
      (v v' : ManifestRoute),
    (k, v) ∈ entries → alistLookup acc k = some v' →
    mergeSlotEntries acc entries = .error "cannot merge slot routes" := by
  induction entries with
  | nil => intro acc k v v' h; cases h
  | cons e rest ih =>
    intro acc k v v' hmem hacc
    obtain ⟨k0, v0⟩ := e
    simp only [mergeSlotEntries]
    cases hl : alistLookup acc k0 with
    | some _ => rfl
    | none =>
      rcases List.mem_cons.1 hmem with h | h
      · injection h with h1 h2
        subst h1
        rw [hacc] at hl
        cases hl
      · refine ih (alistSet acc k0 v0) k v v' h ?_
        rw [alistLookup_set]
        by_cases hk : k = k0
        · subst hk; rw [hacc] at hl; cases hl
        · rw [if_neg hk]; exact hacc

lemma alistLookup_none_of_not_mem {α : Type} (l : List (String × α))
    (k : String) (h : k ∉ l.map Prod.fst) : alistLookup l k = none := by
  induction l with
  | nil => rfl
  | cons e rest ih =>
    obtain ⟨k0, v0⟩ := e
    simp only [List.map, List.mem_cons] at h
    push_neg at h
    have hne : ¬ (k0 = k) := by
      intro hh
      exact h.1 hh.symm
    simp only [alistLookup, if_neg hne]
    exact ih h.2

lemma mergeChildEntries_lookup (entries : List (String × ManifestRoute)) :
    ∀ (fuel : Nat) (acc out : List (String × ManifestRoute)),
    mergeChildEntries fuel acc entries = .ok out →
    (entries.map Prod.fst).Nodup →
    ∀ k, alistLookup out k =
      (alistLookup entries k).or (alistLookup acc k) := by
  induction entries with
  | nil =>
    intro fuel acc out h _ k
    cases fuel with
    | zero => cases h
    | succ f =>
      injection h with h
      simp [h.symm, alistLookup, Option.or]
  | cons e rest ih =>
    intro fuel acc out h hnd k
    obtain ⟨k0, rc⟩ := e
    cases fuel with
    | zero => cases h
    | succ f =>
      simp only [mergeChildEntries] at h
      have hnd' : (rest.map Prod.fst).Nodup := by
        simp only [List.map, List.nodup_cons] at hnd
        exact hnd.2
      have hk0 : k0 ∉ rest.map Prod.fst := by
        simp only [List.map, List.nodup_cons] at hnd
        exact hnd.1
      by_cases hkk : k = k0
      · subst hkk
        have hrest : alistLookup rest k = none :=
          alistLookup_none_of_not_mem rest k hk0
        cases hl : alistLookup acc k with
        | some lc =>
          simp only [hl] at h
          cases hm : mergeManifestRoutes f lc rc with
          | error e =>
            simp only [hm, Except.bind, bind] at h
            cases h
          | ok m =>
            simp only [hm, Except.bind, bind] at h
            have := ih f _ out h hnd' k
            rw [this, hrest]
            simp only [alistLookup, if_pos rfl, Option.or]
            rw [alistLookup_set]
            simp
        | none =>
          simp only [hl] at h
          have := ih f _ out h hnd' k
          rw [this, hrest]
          simp only [alistLookup, if_pos rfl, Option.or]
          rw [alistLookup_set]
          simp
      · cases hl : alistLookup acc k0 with
        | some lc =>
          simp only [hl] at h
          cases hm : mergeManifestRoutes f lc rc with
          | error e =>
            simp only [hm, Except.bind, bind] at h
            cases h
          | ok m =>
            simp only [hm, Except.bind, bind] at h
            have := ih f _ out h hnd' k
            rw [this]
            have hne : ¬ (k0 = k) := by
              intro hh
              exact hkk hh.symm
            simp only [alistLookup, if_neg hne]
            rw [alistLookup_set, if_neg hkk, alistLookup_set, if_neg hkk]
        | none =>
          simp only [hl] at h
          have := ih f _ out h hnd' k
          rw [this]
          have hne : ¬ (k0 = k) := by
            intro hh
            exact hkk hh.symm
          simp only [alistLookup, if_neg hne]
          rw [alistLookup_set, if_neg hkk]

/-- C1: merging two manifest routes is fatal if either side is a Page,
Intercept, or Public route, fatal if the two segments differ, and fatal
if both sides define an index; otherwise the result is a node with the
common segment, the index of whichever side has one, fallback and slots
maps unioned key-wise with a fatal error on any duplicate key, and a
children map unioned key-wise in which a colliding key is recursively
merged from the left-accumulated map (errors propagate) but the final
value is overwritten by the right side. -/
theorem c1_merge_rule :
    (∀ (fuel : Nat) (l r : ManifestRoute),
      (l.isPage = true ∨ r.isPage = true) →
      mergeManifestRoutes (fuel + 1) l r =
        .error "cannot merge page routes") ∧
    (∀ (fuel : Nat) (l r : ManifestRoute),
      l.isPage = false → r.isPage = false →
      (l.isIntercept = true ∨ r.isIntercept = true) →
      mergeManifestRoutes (fuel + 1) l r =
        .error "cannot merge intercepts") ∧
    (∀ (fuel : Nat) (l r : ManifestRoute),
      l.isPage = false → r.isPage = false →
      l.isIntercept = false → r.isIntercept = false →
      (l.isPub = true ∨ r.isPub = true) →
      mergeManifestRoutes (fuel + 1) l r =
        .error "cannot merge public routes") ∧
    (∀ (fuel : Nat) (ls rs : String) (li ri : Option ManifestRouteIndex)
      (lf rf : List (String × ManifestRouteFallback))
      (lsl rsl lch rch : List (String × ManifestRoute)),
      ls ≠ rs →
      mergeManifestRoutes (fuel + 1) (.node ls li lf lsl lch)
        (.node rs ri rf rsl rch) = .error "route segment mismatch") ∧
    (∀ (fuel : Nat) (s : String) (i1 i2 : ManifestRouteIndex)
      (lf rf : List (String × ManifestRouteFallback))
      (lsl rsl lch rch : List (String × ManifestRoute)),
      mergeManifestRoutes (fuel + 1) (.node s (some i1) lf lsl lch)
        (.node s (some i2) rf rsl rch) =
        .error "cannot merge index routes") ∧
    (∀ (fuel : Nat) (s : String) (li ri : Option ManifestRouteIndex)
      (lf rf : List (String × ManifestRouteFallback))
      (lsl rsl lch rch : List (String × ManifestRoute)) (k : String)
      (v v' : ManifestRouteFallback),
      ¬(li.isSome = true ∧ ri.isSome = true) →
      (k, v) ∈ rf → alistLookup lf k = some v' →
      mergeManifestRoutes (fuel + 1) (.node s li lf lsl lch)
        (.node s ri rf rsl rch) = .error "cannot merge fallback routes") ∧
    (∀ (fuel : Nat) (s : String) (li ri : Option ManifestRouteIndex)
      (lf rf : List (String × ManifestRouteFallback))
      (fb : List (String × ManifestRouteFallback))
      (lsl rsl lch rch : List (String × ManifestRoute)) (k : String)
      (v v' : ManifestRoute),
      ¬(li.isSome = true ∧ ri.isSome = true) →
      mergeFallbackEntries lf rf = .ok fb →
      (k, v) ∈ rsl → alistLookup lsl k = some v' →
      mergeManifestRoutes (fuel + 1) (.node s li lf lsl lch)
        (.node s ri rf rsl rch) = .error "cannot merge slot routes") ∧
    (∀ (fuel : Nat) (s : String) (li ri : Option ManifestRouteIndex)
      (lf rf : List (String × ManifestRouteFallback))
      (lsl rsl lch rch : List (String × ManifestRoute))
      (m : ManifestRoute),
      mergeManifestRoutes (fuel + 1) (.node s li lf lsl lch)
        (.node s ri rf rsl rch) = .ok m →
      (rch.map Prod.fst).Nodup →
      ∃ ch, m = .node s (li.or ri) (lf ++ rf) (lsl ++ rsl) ch ∧
        ∀ k, alistLookup ch k =
          (alistLookup rch k).or (alistLookup lch k)) := by
  refine ⟨?_, ?_, ?_, ?_, ?_, ?_, ?_, ?_⟩
  · intro fuel l r h
    cases l <;> cases r <;>
      simp_all [ManifestRoute.isPage, mergeManifestRoutes]
  · intro fuel l r hl hr h
    cases l <;> cases r <;>
      simp_all [ManifestRoute.isPage, ManifestRoute.isIntercept,
        mergeManifestRoutes]
  · intro fuel l r hl hr hl2 hr2 h
    cases l <;> cases r <;>
      simp_all [ManifestRoute.isPage, ManifestRoute.isIntercept,
        ManifestRoute.isPub, mergeManifestRoutes]
  · intro fuel ls rs li ri lf rf lsl rsl lch rch hne
    simp [mergeManifestRoutes, hne]
  · intro fuel s i1 i2 lf rf lsl rsl lch rch
    simp [mergeManifestRoutes]
  · intro fuel s li ri lf rf lsl rsl lch rch k v v' hidx hmem hlk
    have hfb := mergeFallbackEntries_dup rf lf k v v' hmem hlk
    simp [mergeManifestRoutes, hidx, hfb, Except.bind, bind]
  · intro fuel s li ri lf rf fb lsl rsl lch rch k v v' hidx hfb hmem hlk
    have hsl := mergeSlotEntries_dup rsl lsl k v v' hmem hlk
    simp [mergeManifestRoutes, hidx, hfb, hsl, Except.bind, bind]
  · intro fuel s li ri lf rf lsl rsl lch rch m h hnd
    simp only [mergeManifestRoutes] at h
    rw [if_neg (by simp)] at h
    by_cases hidx : li.isSome = true ∧ ri.isSome = true
    · rw [if_pos hidx] at h
      cases h
    · rw [if_neg hidx] at h
      cases hfb : mergeFallbackEntries lf rf with
      | error e =>
        simp only [hfb, Except.bind, bind] at h
        cases h
      | ok fb =>
        simp only [hfb, Except.bind, bind] at h
        cases hsl : mergeSlotEntries lsl rsl with
        | error e =>
          simp only [hsl, Except.bind, bind] at h
          cases h
        | ok sl =>
          simp only [hsl, Except.bind, bind] at h
          cases hch : mergeChildEntries fuel lch rch with
          | error e =>
            simp only [hch, Except.bind, bind] at h
            cases h
          | ok ch =>
            simp only [hch, Except.bind, bind] at h
            injection h with h
            refine ⟨ch, ?_, ?_⟩
            · rw [← h, mergeFallbackEntries_ok rf lf fb hfb,
                mergeSlotEntries_ok rsl lsl sl hsl]
              cases li <;> simp [Option.or]
            · exact mergeChildEntries_lookup rch fuel lch ch hch hnd

/-- Witness for C1: a page collision, a segment mismatch, and a duplicate
fallback key, each at concrete inputs. -/
theorem c1_merge_rule_witness :
    mergeManifestRoutes 1 (.page "a" none [] "p") (.node "a" none [] [] [])
      = .error "cannot merge page routes" ∧
    mergeManifestRoutes 1 (.node "a" none [] [] [])
      (.node "b" none [] [] []) = .error "route segment mismatch" ∧
    mergeManifestRoutes 1
      (.node "x" none [("^e", ⟨[], "1"⟩)] [] [])
      (.node "x" none [("^e", ⟨[], "2"⟩)] [] []) =
      .error "cannot merge fallback routes" :=
  ⟨c1_merge_rule.1 0 _ _ (Or.inl rfl),
   c1_merge_rule.2.2.2.1 0 "a" "b" none none [] [] [] [] [] [] (by decide),
   c1_merge_rule.2.2.2.2.2.1 0 "x" none none [("^e", ⟨[], "1"⟩)]
     [("^e", ⟨[], "2"⟩)] [] [] [] [] "^e" ⟨[], "2"⟩ ⟨[], "1"⟩ (by simp)
     (by simp) (by rfl)⟩


/- ### Fallback routes are page leaves (claim C8) -/

lemma mc_step (fuel : Nat) (st : RouteState)
    (idx : Option ManifestRouteIndex)
    (fb : List (String × ManifestRouteFallback))
    (sl ch : List (String × ManifestRoute)) (x : RouteConfig)
    (rest : List RouteConfig) :
    (∃ e, manifestChildren (fuel + 1) st idx fb sl ch (x :: rest) =
      .error e) ∨
    (∃ idx' fb' sl' ch',
      manifestChildren (fuel + 1) st idx fb sl ch (x :: rest) =
        manifestChildren fuel st idx' fb' sl' ch' rest ∧
      (∀ k, (alistLookup fb k).isSome → (alistLookup fb' k).isSome)) := by
  simp only [manifestChildren]
  by_cases hp : x.path = "/"
  · rw [if_pos hp]
    cases idx with
    | some i => exact Or.inl ⟨_, rfl⟩
    | none =>
      by_cases hpg : isRouteConfigPage x = true
      · rw [if_pos hpg]
        exact Or.inr ⟨_, fb, sl, ch, rfl, fun k h => h⟩
      · simp only [hpg, Bool.false_eq_true, if_false]
        exact Or.inl ⟨_, rfl⟩
  · rw [if_neg hp]
    cases hr : getManifestRoutesFromConfig fuel x st with
    | error e =>
      simp only [Except.bind, bind]
      exact Or.inl ⟨e, rfl⟩
    | ok route =>
      simp only [Except.bind, bind]
      by_cases h1 : strStartsWith (getSegmentFromPath x.path) "^" = true
      · rw [if_pos h1]
        by_cases hpg : isRouteConfigPage x = true
        · simp only [hpg, Bool.not_true, Bool.false_eq_true, if_false]
          cases hl : alistLookup fb (getSegmentFromPath x.path) with
          | some _ => exact Or.inl ⟨_, rfl⟩
          | none =>
            refine Or.inr ⟨idx, _, sl, ch, rfl, ?_⟩
            intro k hk
            rw [alistLookup_set]
            by_cases hkk : k = getSegmentFromPath x.path
            · simp [hkk]
            · rw [if_neg hkk]; exact hk
        · simp only [hpg, Bool.not_false, if_true]
          exact Or.inl ⟨_, rfl⟩
      · simp only [h1, Bool.false_eq_true, if_false]
        by_cases h2 : strStartsWith (getSegmentFromPath x.path) "@" = true
        · rw [if_pos h2]
          cases hl : alistLookup sl (getSegmentFromPath x.path) with
          | some old =>
            cases hm : mergeManifestRoutes fuel old route with
            | error e =>
              simp only [hm, Except.bind, bind]
              exact Or.inl ⟨e, rfl⟩
            | ok m =>
              simp only [hm, Except.bind, bind]
              exact Or.inr ⟨idx, fb, _, ch, rfl, fun k h => h⟩
          | none => exact Or.inr ⟨idx, fb, _, ch, rfl, fun k h => h⟩
        · simp only [h2, Bool.false_eq_true, if_false]
          cases hl : alistLookup ch (getSegmentFromPath x.path) with
          | some old =>
            cases hm : mergeManifestRoutes fuel old route with
            | error e =>
              simp only [hm, Except.bind, bind]
              exact Or.inl ⟨e, rfl⟩
            | ok m =>
              simp only [hm, Except.bind, bind]
              exact Or.inr ⟨idx, fb, sl, _, rfl, fun k h => h⟩
          | none => exact Or.inr ⟨idx, fb, sl, _, rfl, fun k h => h⟩

lemma mc_step_fallback_nonpage (fuel : Nat) (st : RouteState)
    (idx : Option ManifestRouteIndex)
    (fb : List (String × ManifestRouteFallback))
    (sl ch : List (String × ManifestRoute)) (x : RouteConfig)
    (rest : List RouteConfig)
    (hseg : strStartsWith (getSegmentFromPath x.path) "^" = true)
    (hpg : isRouteConfigPage x = false) :
    ∃ e, manifestChildren (fuel + 1) st idx fb sl ch (x :: rest) =
      .error e := by
  have hp : x.path ≠ "/" := by
    intro hp
    rw [hp] at hseg
    simp [getSegmentFromPath, strStartsWith, List.isPrefixOf] at hseg
  simp only [manifestChildren, if_neg hp]
  cases hr : getManifestRoutesFromConfig fuel x st with
  | error e =>
    simp only [Except.bind, bind]
    exact ⟨e, rfl⟩
  | ok route =>
    simp only [Except.bind, bind, if_pos hseg, hpg, Bool.not_false, if_true]
    exact ⟨_, rfl⟩

lemma mc_step_fallback_dup (fuel : Nat) (st : RouteState)
    (idx : Option ManifestRouteIndex)
    (fb : List (String × ManifestRouteFallback))
    (sl ch : List (String × ManifestRoute)) (x : RouteConfig)
    (rest : List RouteConfig)
    (hseg : strStartsWith (getSegmentFromPath x.path) "^" = true)
    (hpg : isRouteConfigPage x = true)
    (hdup : (alistLookup fb (getSegmentFromPath x.path)).isSome = true) :
    ∃ e, manifestChildren (fuel + 1) st idx fb sl ch (x :: rest) =
      .error e := by
  have hp : x.path ≠ "/" := by
    intro hp
    rw [hp] at hseg
    simp [getSegmentFromPath, strStartsWith, List.isPrefixOf] at hseg
  simp only [manifestChildren, if_neg hp]
  cases hr : getManifestRoutesFromConfig fuel x st with
  | error e =>
    simp only [Except.bind, bind]
    exact ⟨e, rfl⟩
  | ok route =>
    simp only [Except.bind, bind, if_pos hseg, hpg, Bool.not_true,
      Bool.false_eq_true, if_false]
    obtain ⟨v, hv⟩ := Option.isSome_iff_exists.1 hdup
    rw [hv]
    exact ⟨_, rfl⟩

lemma mc_step_fallback_insert (fuel : Nat) (st : RouteState)
    (idx : Option ManifestRouteIndex)
    (fb : List (String × ManifestRouteFallback))
    (sl ch : List (String × ManifestRoute)) (x : RouteConfig)
    (rest : List RouteConfig)
    (hseg : strStartsWith (getSegmentFromPath x.path) "^" = true)
    (hpg : isRouteConfigPage x = true) :
    (∃ e, manifestChildren (fuel + 1) st idx fb sl ch (x :: rest) =
      .error e) ∨
    (∃ fb', manifestChildren (fuel + 1) st idx fb sl ch (x :: rest) =
        manifestChildren fuel st idx fb' sl ch rest ∧
      (alistLookup fb' (getSegmentFromPath x.path)).isSome = true) := by
  have hp : x.path ≠ "/" := by
    intro hp
    rw [hp] at hseg
    simp [getSegmentFromPath, strStartsWith, List.isPrefixOf] at hseg
  simp only [manifestChildren, if_neg hp]
  cases hr : getManifestRoutesFromConfig fuel x st with
  | error e =>
    simp only [Except.bind, bind]
    exact Or.inl ⟨e, rfl⟩
  | ok route =>
    simp only [Except.bind, bind, if_pos hseg, hpg, Bool.not_true,
      Bool.false_eq_true, if_false]
    cases hl : alistLookup fb (getSegmentFromPath x.path) with
    | some _ => exact Or.inl ⟨_, rfl⟩
    | none =>
      refine Or.inr ⟨_, rfl, ?_⟩
      rw [alistLookup_set]
      simp

lemma mc_never_ok_nonpage_fallback (c : RouteConfig)
    (post : List RouteConfig)
    (hseg : strStartsWith (getSegmentFromPath c.path) "^" = true)
    (hpg : isRouteConfigPage c = false) :
    ∀ (pre : List RouteConfig) (fuel : Nat) (st : RouteState)
      (idx : Option ManifestRouteIndex)
      (fb : List (String × ManifestRouteFallback))
      (sl ch : List (String × ManifestRoute)) out,
    manifestChildren fuel st idx fb sl ch (pre ++ (c :: post)) ≠
      .ok out := by
  intro pre
  induction pre with
  | nil =>
    intro fuel st idx fb sl ch out
    cases fuel with
    | zero => intro h; cases h
    | succ f =>
      rw [List.nil_append]
      obtain ⟨e, he⟩ :=
        mc_step_fallback_nonpage f st idx fb sl ch c post hseg hpg
      rw [he]
      intro h
      cases h
  | cons x pre' ih =>
    intro fuel st idx fb sl ch out
    cases fuel with
    | zero => intro h; cases h
    | succ f =>
      rw [List.cons_append]
      rcases mc_step f st idx fb sl ch x (pre' ++ (c :: post)) with
        ⟨e, he⟩ | ⟨idx', fb', sl', ch', heq, _⟩
      · rw [he]; intro h; cases h
      · rw [heq]; exact ih f st idx' fb' sl' ch' out

lemma mc_never_ok_dup_fallback (c2 : RouteConfig)
    (post : List RouteConfig)
    (hseg : strStartsWith (getSegmentFromPath c2.path) "^" = true)
    (hpg : isRouteConfigPage c2 = true) :
    ∀ (mid : List RouteConfig) (fuel : Nat) (st : RouteState)
      (idx : Option ManifestRouteIndex)
      (fb : List (String × ManifestRouteFallback))
      (sl ch : List (String × ManifestRoute)) out,
    (alistLookup fb (getSegmentFromPath c2.path)).isSome = true →
    manifestChildren fuel st idx fb sl ch (mid ++ (c2 :: post)) ≠
      .ok out := by
  intro mid
  induction mid with
  | nil =>
    intro fuel st idx fb sl ch out hdup
    cases fuel with
    | zero => intro h; cases h
    | succ f =>
      rw [List.nil_append]
      obtain ⟨e, he⟩ :=
        mc_step_fallback_dup f st idx fb sl ch c2 post hseg hpg hdup
      rw [he]
      intro h
      cases h
  | cons x mid' ih =>
    intro fuel st idx fb sl ch out hdup
    cases fuel with
    | zero => intro h; cases h
    | succ f =>
      rw [List.cons_append]
      rcases mc_step f st idx fb sl ch x (mid' ++ (c2 :: post)) with
        ⟨e, he⟩ | ⟨idx', fb', sl', ch', heq, hmono⟩
      · rw [he]; intro h; cases h
      · rw [heq]
        exact ih f st idx' fb' sl' ch' out
          (hmono (getSegmentFromPath c2.path) hdup)

lemma mc_never_ok_two_fallbacks (c1 c2 : RouteConfig)
    (mid post : List RouteConfig)
    (hseq : getSegmentFromPath c1.path = getSegmentFromPath c2.path)
    (hseg : strStartsWith (getSegmentFromPath c1.path) "^" = true)
    (hp1 : isRouteConfigPage c1 = true)
    (hp2 : isRouteConfigPage c2 = true) :
    ∀ (pre : List RouteConfig) (fuel : Nat) (st : RouteState)
      (idx : Option ManifestRouteIndex)
      (fb : List (String × ManifestRouteFallback))
      (sl ch : List (String × ManifestRoute)) out,
    manifestChildren fuel st idx fb sl ch
      (pre ++ (c1 :: (mid ++ (c2 :: post)))) ≠ .ok out := by
  intro pre
  induction pre with
  | nil =>
    intro fuel st idx fb sl ch out
    cases fuel with
    | zero => intro h; cases h
    | succ f =>
      rw [List.nil_append]
      rcases mc_step_fallback_insert f st idx fb sl ch c1
        (mid ++ (c2 :: post)) hseg hp1 with ⟨e, he⟩ | ⟨fb', heq, hin⟩
      · rw [he]; intro h; cases h
      · rw [heq]
        refine mc_never_ok_dup_fallback c2 post (hseq ▸ hseg) hp2 mid f st
          idx fb' sl ch out ?_
        rw [← hseq]
        exact hin
  | cons x pre' ih =>
    intro fuel st idx fb sl ch out
    cases fuel with
    | zero => intro h; cases h
    | succ f =>
      rw [List.cons_append]
      rcases mc_step f st idx fb sl ch x
        (pre' ++ (c1 :: (mid ++ (c2 :: post)))) with
        ⟨e, he⟩ | ⟨idx', fb', sl', ch', heq, _⟩
      · rw [he]; intro h; cases h
      · rw [heq]; exact ih f st idx' fb' sl' ch' out

lemma fromNode_never_ok (fuel : Nat) (path : String)
    (layout : Option String) (children : List RouteConfig)
    (st : RouteState) (m : ManifestRoute)
    (hyp : ∀ (f : Nat) (st' : RouteState)
      (idx : Option ManifestRouteIndex)
      (fb : List (String × ManifestRouteFallback))
      (sl ch : List (String × ManifestRoute)) out,
      manifestChildren f st' idx fb sl ch children ≠ .ok out) :
    getManifestRoutesFromNode fuel path layout children st ≠ .ok m := by
  cases fuel with
  | zero => intro h; cases h
  | succ f =>
    simp only [getManifestRoutesFromNode]
    cases hl : manifestChildren f
        (match layout with
          | some l =>
            (RouteState.fromSegment st (getSegmentFromPath path)).pushLayout
              (basenameStr l)
          | none => RouteState.fromSegment st (getSegmentFromPath path))
        none [] [] [] children with
    | error e =>
      simp only [hl, Except.bind, bind]
      intro h
      cases h
    | ok r => exact absurd hl (hyp f _ none [] [] [] r)

lemma fallbackDir_never_ok (fuel : Nat) (tree : FileTree) (name : String)
    (t : FileTree) (isRoot : Bool) (cfg : RouteConfig) :
    getRouteConfigFromDirTree fuel tree (some (.fallback name t))
      isRoot ≠ .ok cfg := by
  cases fuel with
  | zero => intro h; cases h
  | succ f =>
    simp only [getRouteConfigFromDirTree, Except.bind, bind, pure,
      Except.pure, Option.map]
    cases hloop : buildConfigChildren f none none [] [] tree.childrenD with
    | error e => simp [hloop]
    | ok r =>
      simp only [hloop]
      cases isRoot with
      | true => simp
      | false => simp [getRoutePath]

/-- C8: fallbacks must be page leaves.  A Fallback-classified directory
never builds successfully (childless ones fail with "fallback routes must
not be directories"); in the manifest builder a child whose segment
starts with `^` that is not a page config makes the node build fatal
(when reached first, with "fallback route must be a page"); and two
sibling page children resolving to the same `^`-segment make the node
build fatal (when reached first, with "cannot merge fallback routes"). -/
theorem c8_fallback_leaf_only :
    (∀ (fuel : Nat) (tree : FileTree) (name : String) (t : FileTree)
      (isRoot : Bool) (cfg : RouteConfig),
      getRouteConfigFromDirTree fuel tree (some (.fallback name t))
        isRoot ≠ .ok cfg) ∧
    getRouteConfigFromDirTree 20 (.dir "*oops" "s" []) none false =
      .error "fallback routes must not be directories" ∧
    (∀ (fuel : Nat) (path : String) (layout : Option String)
      (pre post : List RouteConfig) (c : RouteConfig) (st : RouteState)
      (m : ManifestRoute),
      strStartsWith (getSegmentFromPath c.path) "^" = true →
      isRouteConfigPage c = false →
      getManifestRoutesFromNode fuel path layout (pre ++ (c :: post)) st ≠
        .ok m) ∧
    getManifestRoutesFromNode 20 "/x" none
      [.node none "/^err" none none [] []] RouteState.empty =
      .error "fallback route must be a page" ∧
    (∀ (fuel : Nat) (path : String) (layout : Option String)
      (pre mid post : List RouteConfig) (c1 c2 : RouteConfig)
      (st : RouteState) (m : ManifestRoute),
      getSegmentFromPath c1.path = getSegmentFromPath c2.path →
      strStartsWith (getSegmentFromPath c1.path) "^" = true →
      isRouteConfigPage c1 = true → isRouteConfigPage c2 = true →
      getManifestRoutesFromNode fuel path layout
        (pre ++ (c1 :: (mid ++ (c2 :: post)))) st ≠ .ok m) ∧
    getManifestRoutesFromNode 20 "/x" none
      [.page none "/^err" none "f1", .page none "/^err" none "f2"]
      RouteState.empty = .error "cannot merge fallback routes" := by
  refine ⟨fallbackDir_never_ok, by rfl, ?_, by rfl, ?_, by rfl⟩
  · intro fuel path layout pre post c st m hseg hpg
    exact fromNode_never_ok fuel path layout (pre ++ (c :: post)) st m
      (fun f st' idx fb sl ch out =>
        mc_never_ok_nonpage_fallback c post hseg hpg pre f st' idx fb sl
          ch out)
  · intro fuel path layout pre mid post c1 c2 st m hseq hseg hp1 hp2
    exact fromNode_never_ok fuel path layout
      (pre ++ (c1 :: (mid ++ (c2 :: post)))) st m
      (fun f st' idx fb sl ch out =>
        mc_never_ok_two_fallbacks c1 c2 mid post hseq hseg hp1 hp2 pre f
          st' idx fb sl ch out)

/-- Witness for C8 at concrete inputs. -/
theorem c8_fallback_leaf_only_witness :
    (getRouteConfigFromDirTree 5 (.dir "*o" "s" [])
      (some (.fallback "o" (.file "q" "q"))) false ≠
      .ok (.page none "/" none "x")) ∧
    (getManifestRoutesFromNode 6 "/x" none
      ([] ++ ((.node none "/^err" none none [] []) :: []))
      RouteState.empty ≠ .ok (.page "p" none [] "p")) ∧
    (getManifestRoutesFromNode 6 "/x" none
      ([] ++ ((.page none "/^err" none "f1") ::
        ([] ++ ((.page none "/^err" none "f2") :: []))))
      RouteState.empty ≠ .ok (.page "p" none [] "p")) :=
  ⟨c8_fallback_leaf_only.1 5 (.dir "*o" "s" []) "o" (.file "q" "q") false
      (.page none "/" none "x"),
   c8_fallback_leaf_only.2.2.1 6 "/x" none [] []
      (.node none "/^err" none none [] []) RouteState.empty
      (.page "p" none [] "p") (by rfl) (by rfl),
   c8_fallback_leaf_only.2.2.2.2.1 6 "/x" none [] [] []
      (.page none "/^err" none "f1") (.page none "/^err" none "f2")
      RouteState.empty (.page "p" none [] "p") (by rfl) (by rfl) (by rfl)
      (by rfl)⟩

/- ### Group wrapping and the route config (claim C6) -/

lemma collapse_mono : ∀ f : Nat,
    (∀ (t : FileTree) (rn : ParsedRouteName),
      getCollapsedGroups f t rn ≠ .error "out of fuel" →
      getCollapsedGroups (f + 1) t rn = getCollapsedGroups f t rn) ∧
    (∀ (orig : FileTree) (l : List FileTree),
      collapseChildrenList f orig l ≠ .error "out of fuel" →
      collapseChildrenList (f + 1) orig l =
        collapseChildrenList f orig l) := by
  intro f
  induction f with
  | zero =>
    constructor
    · intro t rn h
      exact absurd rfl h
    · intro orig l h
      exact absurd rfl h
  | succ f ih =>
    constructor
    · intro t rn h
      match t, rn with
      | .dir fn src children, .group gn gt =>
        simp only [getCollapsedGroups] at h ⊢
        exact ih.2 _ children h
      | .dir fn src children, .segment n p i t2 e => rfl
      | .dir fn src children, .slot n t2 => rfl
      | .dir fn src children, .fallback n t2 => rfl
      | .file fn src, rn => cases rn <;> rfl
    · intro orig l h
      match l with
      | [] => rfl
      | c :: rest =>
        simp only [collapseChildrenList] at h ⊢
        cases hp : parseRouteName c with
        | error e => simp [hp, Except.bind, bind]
        | ok rc =>
          simp only [hp, Except.bind, bind] at h ⊢
          cases h1 : getCollapsedGroups f c rc with
          | error e =>
            have hne : e ≠ "out of fuel" := by
              intro he
              rw [h1, he] at h
              exact h rfl
            rw [ih.1 c rc (by rw [h1]; simp [hne]), h1]
          | ok l1 =>
            rw [ih.1 c rc (by rw [h1]; simp), h1]
            simp only [h1] at h
            cases h2 : collapseChildrenList f orig rest with
            | error e =>
              have hne : e ≠ "out of fuel" := by
                intro he
                rw [h2, he] at h
                exact h rfl
              rw [ih.2 orig rest (by rw [h2]; simp [hne]), h2]
            | ok l2 =>
              rw [ih.2 orig rest (by rw [h2]; simp), h2]

lemma collapse_stable (k f : Nat) (t : FileTree) (rn : ParsedRouteName)
    (h : getCollapsedGroups f t rn ≠ .error "out of fuel") :
    getCollapsedGroups (f + k) t rn = getCollapsedGroups f t rn := by
  induction k with
  | zero => rfl
  | succ k ih =>
    have : getCollapsedGroups (f + k + 1) t rn =
        getCollapsedGroups (f + k) t rn :=
      (collapse_mono (f + k)).1 t rn (by rw [ih]; exact h)
    rw [show f + (k + 1) = f + k + 1 from rfl, this, ih]

lemma setTree_treeOf (rn : ParsedRouteName) : rn.setTree rn.treeOf = rn := by
  cases rn <;> rfl

lemma parseRouteName_dir_congr (fn s1 s2 : String) (ch1 ch2 : List FileTree) :
    parseRouteName (.dir fn s1 ch1) =
      (parseRouteName (.dir fn s2 ch2)).map
        (ParsedRouteName.setTree (.dir fn s1 ch1)) := by
  have h1 : isLayout (.dir fn s1 ch1) = false := rfl
  have h2 : isLayout (.dir fn s2 ch2) = false := rfl
  simp only [parseRouteName, h1, h2, FileTree.filename, Bool.false_eq_true,
    if_false]
  cases hg : parseGroupName fn
  case some => simp [Except.map, ParsedRouteName.setTree]
  case none =>
  cases hs : parseSlotName fn
  case some => simp [Except.map, ParsedRouteName.setTree]
  case none =>
  cases hf : parseFallbackName fn
  case some => simp [Except.map, ParsedRouteName.setTree]
  case none =>
  cases hI : parseIntercept fn
  case none =>
    simp only [hI]
    cases hp : parseParam fn
    case some => simp [hp, Except.map, ParsedRouteName.setTree]
    case none =>
    cases he : parseEscapedRoute fn
    case some => simp [hp, he, Except.map, ParsedRouteName.setTree]
    case none =>
    cases hn : parseSegmentName fn <;>
      simp [hp, he, hn, Except.map, ParsedRouteName.setTree]
  case some v =>
    simp only [hI]
    cases hp : parseParam v.2
    case some => simp [hp, Except.map, ParsedRouteName.setTree]
    case none =>
    cases he : parseEscapedRoute v.2
    case some => simp [hp, he, Except.map, ParsedRouteName.setTree]
    case none =>
    cases hn : parseSegmentName v.2 <;>
      simp [hp, he, hn, Except.map, ParsedRouteName.setTree]


lemma findIndex_congr (x y : FileTree) (hx : isIndex x = .ok false)
    (hy : isIndex y = .ok false) :
    ∀ (l1 : List FileTree) (acc : Option FileTree) (l2 : List FileTree),
    findIndexTree acc (l1 ++ (x :: l2)) =
      findIndexTree acc (l1 ++ (y :: l2)) := by
  intro l1
  induction l1 with
  | nil =>
    intro acc l2
    simp [findIndexTree, hx, hy, Except.bind, bind]
  | cons z l1 ih =>
    intro acc l2
    simp only [List.cons_append, findIndexTree, Except.bind, bind]
    cases hb : isIndex z with
    | error e => rfl
    | ok b =>
      cases b with
      | true =>
        cases acc with
        | some _ => rfl
        | none => exact ih (some z) l2
      | false => exact ih acc l2

lemma ebind_ok {α β : Type} (a : α) (f : α → Except String β) :
    (bind (Except.ok a) f : Except String β) = f a := rfl

lemma ebind_error {α β : Type} (e : String) (f : α → Except String β) :
    (bind (Except.error e) f : Except String β) = .error e := rfl

lemma bc_step2 (fuel : Nat) (idxfn : Option String) (lay : Option String)
    (scr : List String) (acc : List RouteConfig) (x : FileTree)
    (rest1 rest2 : List FileTree) :
    (∃ e, buildConfigChildren (fuel + 1) idxfn lay scr acc (x :: rest1)
          = .error e ∧
        buildConfigChildren (fuel + 1) idxfn lay scr acc (x :: rest2)
          = .error e) ∨
    (∃ lay2 scr2 acc2,
        buildConfigChildren (fuel + 1) idxfn lay scr acc (x :: rest1)
          = buildConfigChildren fuel idxfn lay2 scr2 acc2 rest1 ∧
        buildConfigChildren (fuel + 1) idxfn lay scr acc (x :: rest2)
          = buildConfigChildren fuel idxfn lay2 scr2 acc2 rest2) := by
  simp only [buildConfigChildren]
  by_cases hskip : idxfn = some x.filename
  · rw [if_pos hskip, if_pos hskip]
    exact Or.inr ⟨lay, scr, acc, rfl, rfl⟩
  · rw [if_neg hskip, if_neg hskip]
    by_cases hlay : isLayout x = true
    · rw [if_pos hlay, if_pos hlay]
      cases lay with
      | some l => exact Or.inl ⟨_, rfl, rfl⟩
      | none => exact Or.inr ⟨some x.src, scr, acc, rfl, rfl⟩
    · simp only [hlay, Bool.false_eq_true, if_false]
      cases hp : parseRouteName x with
      | error e =>
        simp only [hp, ebind_error]
        exact Or.inl ⟨e, rfl, rfl⟩
      | ok rc =>
        simp only [hp, ebind_ok]
        cases hc : getCollapsedGroups fuel x rc with
        | error e =>
          simp only [hc, ebind_error]
          exact Or.inl ⟨e, rfl, rfl⟩
        | ok col =>
          simp only [hc, ebind_ok]
          cases hb : buildConfigList fuel col with
          | error e =>
            simp only [hb, ebind_error]
            exact Or.inl ⟨e, rfl, rfl⟩
          | ok built =>
            simp only [hb, ebind_ok]
            exact Or.inr ⟨lay,
              if isScript x then scr ++ [x.src] else scr,
              acc ++ built, rfl, rfl⟩


lemma bcc_congr (wname wsrc gname : String) (c : FileTree)
    (hgrp : parseGroupName wname = some gname)
    (hlayc : isLayout c = false)
    (hscrc : isScript c = false) :
    ∀ (pre : List FileTree) (fuel : Nat) (idxfn : Option String)
      (lay : Option String) (scr : List String) (acc : List RouteConfig)
      (post : List FileTree),
      idxfn ≠ some c.filename → idxfn ≠ some wname →
      buildConfigChildren fuel idxfn lay scr acc
        (pre ++ ((FileTree.dir wname wsrc [c]) :: post)) ≠
        .error "out of fuel" →
      buildConfigChildren fuel idxfn lay scr acc
        (pre ++ ((FileTree.dir wname wsrc [c]) :: post)) =
      buildConfigChildren fuel idxfn lay scr acc (pre ++ (c :: post)) := by
  intro pre
  induction pre with
  | nil =>
    intro fuel idxfn lay scr acc post h1 h2 hoof
    match fuel with
    | 0 => exact absurd rfl hoof
    | g + 1 =>
      simp only [List.nil_append] at hoof ⊢
      have hlw : isLayout (FileTree.dir wname wsrc [c]) = false := rfl
      have hsw : isScript (FileTree.dir wname wsrc [c]) = false := rfl
      have hfw : (FileTree.dir wname wsrc [c]).filename = wname := rfl
      have hpw : parseRouteName (FileTree.dir wname wsrc [c]) =
          .ok (.group gname (FileTree.dir wname wsrc [c])) := by
        simp [parseRouteName, hlw, hfw, hgrp]
      simp only [buildConfigChildren, hfw, if_neg h2, if_neg h1, hlw, hlayc,
        Bool.false_eq_true, if_false, hsw, hscrc, hpw, ebind_ok] at hoof ⊢
      match g with
      | 0 =>
        simp only [show (getCollapsedGroups 0 (FileTree.dir wname wsrc [c])
            (.group gname (FileTree.dir wname wsrc [c]))) =
            Except.error "out of fuel" from rfl, ebind_error] at hoof
        exact absurd rfl hoof
      | g + 1 =>
        have hun : getCollapsedGroups (g + 1)
            (FileTree.dir wname wsrc [c])
            (.group gname (FileTree.dir wname wsrc [c])) =
            collapseChildrenList g (FileTree.dir wname wsrc [c]) [c] := rfl
        simp only [hun] at hoof ⊢
        match g with
        | 0 =>
          simp only [show collapseChildrenList 0 (FileTree.dir wname wsrc [c])
              [c] = Except.error "out of fuel" from rfl, ebind_error] at hoof
          exact absurd rfl hoof
        | g + 1 =>
          simp only [collapseChildrenList] at hoof ⊢
          cases hpc : parseRouteName c with
          | error e => simp only [hpc, ebind_error]
          | ok rc =>
            simp only [hpc, ebind_ok] at hoof ⊢
            cases hcc : getCollapsedGroups g c rc with
            | error e =>
              have hne : e ≠ "out of fuel" := by
                intro he
                simp only [hcc, he, ebind_error] at hoof
                exact absurd rfl hoof
              have hst : getCollapsedGroups (g + 1 + 1) c rc =
                  Except.error e := by
                have h2s := collapse_stable 2 g c rc (by rw [hcc]; simp [hne])
                rw [show g + 1 + 1 = g + 2 from rfl, h2s, hcc]
              simp only [hcc, hst, ebind_error]
            | ok l1 =>
              match g, hcc with
              | g + 1, hcc =>
                have hst : getCollapsedGroups (g + 1 + 1 + 1) c rc =
                    Except.ok l1 := by
                  have h2s := collapse_stable 2 (g + 1) c rc
                    (by rw [hcc]; simp)
                  rw [show g + 1 + 1 + 1 = g + 1 + 2 from rfl, h2s, hcc]
                simp only [hcc, ebind_ok] at hoof ⊢
                simp only [show collapseChildrenList (g + 1)
                    (FileTree.dir wname wsrc [c]) [] =
                    Except.ok ([] : List (FileTree × ParsedRouteName))
                    from rfl, ebind_ok, List.append_nil]
                simp only [hst, ebind_ok]
  | cons z pre ih =>
    intro fuel idxfn lay scr acc post h1 h2 hoof
    match fuel with
    | 0 => exact absurd rfl hoof
    | g + 1 =>
      simp only [List.cons_append] at hoof ⊢
      rcases bc_step2 g idxfn lay scr acc z
          (pre ++ ((FileTree.dir wname wsrc [c]) :: post))
          (pre ++ (c :: post)) with ⟨e, e1, e2⟩ | ⟨lay2, scr2, acc2, q1, q2⟩
      · rw [e1, e2]
      · rw [q1, q2]
        rw [q1] at hoof
        exact ih g idxfn lay2 scr2 acc2 post h1 h2 hoof


lemma getParamName_setTree2 (n : String) (p : Option RouteConfigParamType)
    (i : Option RouteConfigInterceptType) (tx ty : FileTree)
    (ext : Option String) :
    getParamName (ParsedRouteName.segment n p i tx ext) =
      getParamName (ParsedRouteName.segment n p i ty ext) := by
  cases p <;> rfl

lemma buildDir_wrap_body
    (g : Nat) (fn src wname wsrc gname : String)
    (pre post : List FileTree) (c : FileTree)
    (idxOpt : Option FileTree) (rn : ParsedRouteName) (tx ty : FileTree)
    (isRoot : Bool)
    (hgrp : parseGroupName wname = some gname)
    (hlayc : isLayout c = false)
    (hscrc : isScript c = false)
    (hidxc : isIndex c = .ok false)
    (hscan : findIndexTree none (pre ++ (c :: post)) = .ok idxOpt)
    (hid1 : idxOpt.map FileTree.filename ≠ some c.filename)
    (hid2 : idxOpt.map FileTree.filename ≠ some wname)
    (hoof : getRouteConfigFromDirTree (g + 1)
        (.dir fn src (pre ++ ((FileTree.dir wname wsrc [c]) :: post)))
        (some (rn.setTree tx)) isRoot ≠ .error "out of fuel") :
    getRouteConfigFromDirTree (g + 1)
        (.dir fn src (pre ++ ((FileTree.dir wname wsrc [c]) :: post)))
        (some (rn.setTree tx)) isRoot =
    getRouteConfigFromDirTree (g + 1)
        (.dir fn src (pre ++ (c :: post)))
        (some (rn.setTree ty)) isRoot := by
  have hiw : isIndex (FileTree.dir wname wsrc [c]) = .ok false := rfl
  have hscan1 : findIndexTree none
      (pre ++ ((FileTree.dir wname wsrc [c]) :: post)) = .ok idxOpt := by
    rw [findIndex_congr (FileTree.dir wname wsrc [c]) c hiw hidxc pre none
      post, hscan]
  have hpureR : ∀ (x : ParsedRouteName),
      (pure x : Except String ParsedRouteName) = Except.ok x := fun _ => rfl
  have hpureO : (pure (none : Option FileTree) :
      Except String (Option FileTree)) = Except.ok none := rfl
  cases rn with
  | segment n p i t0 ext =>
    simp only [getRouteConfigFromDirTree, ParsedRouteName.setTree, hpureR,
      ebind_ok, FileTree.childrenD, hscan1, hscan,
      getParamName_setTree2 n p i tx ty ext, getRoutePath] at hoof ⊢
    by_cases hlp : buildConfigChildren g (Option.map FileTree.filename idxOpt)
        none [] [] (pre ++ ((FileTree.dir wname wsrc [c]) :: post)) =
        .error "out of fuel"
    · rw [hlp, ebind_error] at hoof
      exact absurd rfl hoof
    · rw [bcc_congr wname wsrc gname c hgrp hlayc hscrc pre g
        (Option.map FileTree.filename idxOpt) none [] [] post hid1 hid2 hlp]
  | group n t0 =>
    simp only [getRouteConfigFromDirTree, ParsedRouteName.setTree, hpureR,
      hpureO, ebind_ok, FileTree.childrenD, getRoutePath] at hoof ⊢
    by_cases hlp : buildConfigChildren g (Option.map FileTree.filename none)
        none [] [] (pre ++ ((FileTree.dir wname wsrc [c]) :: post)) =
        .error "out of fuel"
    · rw [hlp, ebind_error] at hoof
      exact absurd rfl hoof
    · rw [bcc_congr wname wsrc gname c hgrp hlayc hscrc pre g
        (Option.map FileTree.filename none) none [] [] post
        (by simp) (by simp) hlp]
  | slot n t0 =>
    simp only [getRouteConfigFromDirTree, ParsedRouteName.setTree, hpureR,
      hpureO, ebind_ok, FileTree.childrenD, getRoutePath] at hoof ⊢
    by_cases hlp : buildConfigChildren g (Option.map FileTree.filename none)
        none [] [] (pre ++ ((FileTree.dir wname wsrc [c]) :: post)) =
        .error "out of fuel"
    · rw [hlp, ebind_error] at hoof
      exact absurd rfl hoof
    · rw [bcc_congr wname wsrc gname c hgrp hlayc hscrc pre g
        (Option.map FileTree.filename none) none [] [] post
        (by simp) (by simp) hlp]
  | fallback n t0 =>
    simp only [getRouteConfigFromDirTree, ParsedRouteName.setTree, hpureR,
      hpureO, ebind_ok, FileTree.childrenD, getRoutePath] at hoof ⊢
    by_cases hlp : buildConfigChildren g (Option.map FileTree.filename none)
        none [] [] (pre ++ ((FileTree.dir wname wsrc [c]) :: post)) =
        .error "out of fuel"
    · rw [hlp, ebind_error] at hoof
      exact absurd rfl hoof
    · rw [bcc_congr wname wsrc gname c hgrp hlayc hscrc pre g
        (Option.map FileTree.filename none) none [] [] post
        (by simp) (by simp) hlp]


lemma buildDir_resolve (g : Nat) (t : FileTree) (rn : ParsedRouteName)
    (isRoot : Bool) (h : parseRouteName t = .ok rn) :
    getRouteConfigFromDirTree (g + 1) t none isRoot =
      getRouteConfigFromDirTree (g + 1) t (some rn) isRoot := by
  simp only [getRouteConfigFromDirTree, h]
  rfl

/-- C6: wrapping a non-index, non-layout, non-script child in a group
directory does not change the route config produced by the directory
builder (provided the group name parses, the surrounding scan's index file
clashes with neither filename, and the wrapped build does not run out of
fuel). -/
theorem c6_group_wrap_transparent
    (fuel : Nat) (fn src wname wsrc gname : String)
    (pre post : List FileTree) (c : FileTree)
    (rn? : Option ParsedRouteName) (isRoot : Bool)
    (idxOpt : Option FileTree)
    (hgrp : parseGroupName wname = some gname)
    (hlayc : isLayout c = false)
    (hscrc : isScript c = false)
    (hidxc : isIndex c = .ok false)
    (hscan : findIndexTree none (pre ++ (c :: post)) = .ok idxOpt)
    (hid1 : idxOpt.map FileTree.filename ≠ some c.filename)
    (hid2 : idxOpt.map FileTree.filename ≠ some wname)
    (hoof : getRouteConfigFromDirTree fuel
        (.dir fn src (pre ++ ((FileTree.dir wname wsrc [c]) :: post)))
        rn? isRoot ≠ .error "out of fuel") :
    getRouteConfigFromDirTree fuel
        (.dir fn src (pre ++ ((FileTree.dir wname wsrc [c]) :: post)))
        rn? isRoot =
      getRouteConfigFromDirTree fuel
        (.dir fn src (pre ++ (c :: post))) rn? isRoot := by
  match fuel with
  | 0 => exact absurd rfl hoof
  | g + 1 =>
    cases rn? with
    | some rn =>
      have h1 : rn.setTree rn.treeOf = rn := setTree_treeOf rn
      rw [← h1] at hoof ⊢
      exact buildDir_wrap_body g fn src wname wsrc gname pre post c idxOpt
        rn rn.treeOf rn.treeOf isRoot hgrp hlayc hscrc hidxc hscan hid1 hid2
        hoof
    | none =>
      have hcongr := parseRouteName_dir_congr fn src src
        (pre ++ ((FileTree.dir wname wsrc [c]) :: post)) (pre ++ (c :: post))
      cases hq : parseRouteName (.dir fn src (pre ++ (c :: post))) with
      | error e =>
        have hp1 : parseRouteName
            (.dir fn src (pre ++ ((FileTree.dir wname wsrc [c]) :: post))) =
            .error e := by
          rw [hcongr, hq]; rfl
        simp only [getRouteConfigFromDirTree, hp1, hq, ebind_error]
      | ok rn =>
        have hself := parseRouteName_dir_congr fn src src
          (pre ++ (c :: post)) (pre ++ (c :: post))
        rw [hq] at hself
        have hrn2 : rn.setTree (.dir fn src (pre ++ (c :: post))) = rn := by
          simp only [Except.map] at hself
          exact (Except.ok.inj hself).symm
        have hp1 : parseRouteName
            (.dir fn src (pre ++ ((FileTree.dir wname wsrc [c]) :: post))) =
            .ok (rn.setTree
              (.dir fn src (pre ++ ((FileTree.dir wname wsrc [c]) :: post))))
            := by
          rw [hcongr, hq]; rfl
        rw [buildDir_resolve g _ _ isRoot hp1] at hoof ⊢
        rw [buildDir_resolve g _ _ isRoot hq]
        conv_rhs => rw [← hrn2]
        exact buildDir_wrap_body g fn src wname wsrc gname pre post c idxOpt
          rn _ _ isRoot hgrp hlayc hscrc hidxc hscan hid1 hid2 hoof
theorem c6_group_wrap_transparent_witness :
    getRouteConfigFromDirTree 20
        (.dir "root" "" [.dir "(g)" "(g)" [.file "a.tsx" "a"]]) none true =
      getRouteConfigFromDirTree 20
        (.dir "root" "" [.file "a.tsx" "a"]) none true :=
  c6_group_wrap_transparent 20 "root" "" "(g)" "(g)" "g" [] []
    (.file "a.tsx" "a") none true none rfl rfl rfl rfl rfl
    (by simp) (by simp)
    (by
      simp only [List.nil_append]
      rw [show getRouteConfigFromDirTree 20
          (.dir "root" "" [.dir "(g)" "(g)" [.file "a.tsx" "a"]]) none true =
          .ok (.node none "/" none none [] [.page none "/a" none "a"])
          from rfl]
      simp)

/-- C6 counterexample: wrapping an `index.tsx` child in a group directory
changes the route config; the index candidate is detected only among the
directory's immediate children, before group collapsing. -/
theorem c6_counterexample :
    getRouteConfig (.dir "root" "" [.file "index.tsx" "idx"]) =
      .ok (.node none "/" none none [] [.page none "/" none "idx"]) ∧
    getRouteConfig (.dir "root" ""
        [.dir "(g)" "(g)" [.file "index.tsx" "idx"]]) =
      .ok (.node none "/" none none [] [.page none "/index" none "idx"]) ∧
    getRouteConfig (.dir "root" ""
        [.dir "(g)" "(g)" [.file "index.tsx" "idx"]]) ≠
      getRouteConfig (.dir "root" "" [.file "index.tsx" "idx"]) := by
  refine ⟨rfl, rfl, ?_⟩
  intro h
  rw [show getRouteConfig (.dir "root" ""
        [.dir "(g)" "(g)" [.file "index.tsx" "idx"]]) =
      .ok (.node none "/" none none [] [.page none "/index" none "idx"])
      from rfl,
    show getRouteConfig (.dir "root" "" [.file "index.tsx" "idx"]) =
      .ok (.node none "/" none none [] [.page none "/" none "idx"])
      from rfl] at h
  simp at h

/- ### Manifest key shape (claim C9) -/

lemma alistSet_mem {α : Type} (l : List (String × α)) (k : String) (v : α) :
    ∀ kv ∈ alistSet l k v, kv ∈ l ∨ kv = (k, v) := by
  induction l with
  | nil =>
    intro kv h
    simp [alistSet] at h
    exact Or.inr h
  | cons hd rest ih =>
    intro kv h
    obtain ⟨k0, v0⟩ := hd
    by_cases hk : k0 = k
    · simp only [alistSet, if_pos hk] at h
      rcases List.mem_cons.mp h with h1 | h1
      · subst hk; exact Or.inr (by rw [h1])
      · exact Or.inl (List.mem_cons_of_mem _ h1)
    · simp only [alistSet, if_neg hk] at h
      rcases List.mem_cons.mp h with h1 | h1
      · exact Or.inl (by rw [h1]; exact List.mem_cons_self _ _)
      · rcases ih kv h1 with h2 | h2
        · exact Or.inl (List.mem_cons_of_mem _ h2)
        · exact Or.inr h2

lemma alistLookup_mem {α : Type} (l : List (String × α)) (k : String)
    (v : α) (h : alistLookup l k = some v) : (k, v) ∈ l := by
  induction l with
  | nil => cases h
  | cons hd rest ih =>
    obtain ⟨k0, v0⟩ := hd
    by_cases hk : k0 = k
    · simp only [alistLookup, if_pos hk] at h
      subst hk
      cases h
      exact List.mem_cons_self _ _
    · simp only [alistLookup, if_neg hk] at h
      exact List.mem_cons_of_mem _ (ih h)

lemma gs_page (s : String) (p : Option String) (ls : List String)
    (pp : String) : GoodShape (.page s p ls pp) := by
  intro d
  cases d <;> rfl

lemma gs_pub (s e : String) : GoodShape (.pub s e) := by
  intro d
  cases d <;> rfl

lemma gs_node_iff (s : String) (i : Option ManifestRouteIndex)
    (fb : List (String × ManifestRouteFallback))
    (sl ch : List (String × ManifestRoute)) :
    GoodShape (.node s i fb sl ch) ↔
      ((∀ kv ∈ fb, strStartsWith kv.1 "^" = true) ∧
       (∀ kv ∈ sl, strStartsWith kv.1 "@" = true ∧ GoodShape kv.2) ∧
       (∀ kv ∈ ch, (strStartsWith kv.1 "^" = false ∧
          strStartsWith kv.1 "@" = false) ∧ GoodShape kv.2)) := by
  constructor
  · intro h
    have hx : ∀ d, (fb.all (fun kv => strStartsWith kv.1 "^") &&
        sl.all (fun kv => strStartsWith kv.1 "@" && goodShapeN d kv.2) &&
        ch.all (fun kv =>
          (!strStartsWith kv.1 "^" && !strStartsWith kv.1 "@") &&
          goodShapeN d kv.2)) = true := fun d => h (d + 1)
    refine ⟨?_, ?_, ?_⟩
    · intro kv hm
      have := hx 0
      simp only [Bool.and_eq_true, List.all_eq_true] at this
      exact this.1.1 kv hm
    · intro kv hm
      constructor
      · have := hx 0
        simp only [Bool.and_eq_true, List.all_eq_true] at this
        exact (this.1.2 kv hm).1
      · intro d
        have := hx d
        simp only [Bool.and_eq_true, List.all_eq_true] at this
        exact (this.1.2 kv hm).2
    · intro kv hm
      constructor
      · have := hx 0
        simp only [Bool.and_eq_true, List.all_eq_true,
          Bool.not_eq_true'] at this
        exact (this.2 kv hm).1
      · intro d
        have := hx d
        simp only [Bool.and_eq_true, List.all_eq_true] at this
        exact (this.2 kv hm).2
  · rintro ⟨h1, h2, h3⟩ d
    cases d with
    | zero => rfl
    | succ d =>
      simp only [goodShapeN, Bool.and_eq_true, List.all_eq_true]
      refine ⟨⟨?_, ?_⟩, ?_⟩
      · intro kv hm
        exact h1 kv hm
      · intro kv hm
        exact ⟨(h2 kv hm).1, (h2 kv hm).2 d⟩
      · intro kv hm
        simp only [Bool.not_eq_true']
        exact ⟨⟨(h3 kv hm).1.1, (h3 kv hm).1.2⟩, (h3 kv hm).2 d⟩

lemma gs_intercept_iff (b : List String)
    (ch : List (String × ManifestRoute)) :
    GoodShape (.intercept b ch) ↔ ∀ kv ∈ ch, GoodShape kv.2 := by
  constructor
  · intro h kv hm d
    have := h (d + 1)
    simp only [goodShapeN, List.all_eq_true] at this
    exact this kv hm
  · intro h d
    cases d with
    | zero => rfl
    | succ d =>
      simp only [goodShapeN, List.all_eq_true]
      intro kv hm
      exact h kv hm d


lemma mergeFallbackEntries_all (p : String × ManifestRouteFallback → Prop) :
    ∀ (rest acc out : List (String × ManifestRouteFallback)),
    mergeFallbackEntries acc rest = .ok out →
    (∀ kv ∈ acc, p kv) → (∀ kv ∈ rest, p kv) → ∀ kv ∈ out, p kv := by
  intro rest
  induction rest with
  | nil =>
    intro acc out h hacc _
    cases h
    exact hacc
  | cons hd rest ih =>
    intro acc out h hacc hrest
    obtain ⟨seg, fb⟩ := hd
    simp only [mergeFallbackEntries] at h
    cases hl : alistLookup acc seg with
    | some _ => rw [hl] at h; cases h
    | none =>
      rw [hl] at h
      refine ih (alistSet acc seg fb) out h ?_ ?_
      · intro kv hm
        rcases alistSet_mem acc seg fb kv hm with h1 | h1
        · exact hacc kv h1
        · rw [h1]
          exact hrest (seg, fb) (List.mem_cons_self _ _)
      · intro kv hm
        exact hrest kv (List.mem_cons_of_mem _ hm)

lemma mergeSlotEntries_all (p : String × ManifestRoute → Prop) :
    ∀ (rest acc out : List (String × ManifestRoute)),
    mergeSlotEntries acc rest = .ok out →
    (∀ kv ∈ acc, p kv) → (∀ kv ∈ rest, p kv) → ∀ kv ∈ out, p kv := by
  intro rest
  induction rest with
  | nil =>
    intro acc out h hacc _
    cases h
    exact hacc
  | cons hd rest ih =>
    intro acc out h hacc hrest
    obtain ⟨seg, sl⟩ := hd
    simp only [mergeSlotEntries] at h
    cases hl : alistLookup acc seg with
    | some _ => rw [hl] at h; cases h
    | none =>
      rw [hl] at h
      refine ih (alistSet acc seg sl) out h ?_ ?_
      · intro kv hm
        rcases alistSet_mem acc seg sl kv hm with h1 | h1
        · exact hacc kv h1
        · rw [h1]
          exact hrest (seg, sl) (List.mem_cons_self _ _)
      · intro kv hm
        exact hrest kv (List.mem_cons_of_mem _ hm)

lemma merge_good : ∀ fuel : Nat,
    (∀ l r m, mergeManifestRoutes fuel l r = .ok m →
      GoodShape l → GoodShape r → GoodShape m) ∧
    (∀ acc rest out, mergeChildEntries fuel acc rest = .ok out →
      (∀ kv ∈ acc, (strStartsWith kv.1 "^" = false ∧
        strStartsWith kv.1 "@" = false) ∧ GoodShape kv.2) →
      (∀ kv ∈ rest, (strStartsWith kv.1 "^" = false ∧
        strStartsWith kv.1 "@" = false) ∧ GoodShape kv.2) →
      ∀ kv ∈ out, (strStartsWith kv.1 "^" = false ∧
        strStartsWith kv.1 "@" = false) ∧ GoodShape kv.2) := by
  intro fuel
  induction fuel with
  | zero =>
    constructor
    · intro l r m hm
      cases hm
    · intro acc rest out h
      cases h
  | succ fuel ih =>
    constructor
    · intro l r m hm hl hr
      match l, r with
      | .page _ _ _ _, .page _ _ _ _ => cases hm
      | .page _ _ _ _, .node _ _ _ _ _ => cases hm
      | .page _ _ _ _, .intercept _ _ => cases hm
      | .page _ _ _ _, .pub _ _ => cases hm
      | .node _ _ _ _ _, .page _ _ _ _ => cases hm
      | .intercept _ _, .page _ _ _ _ => cases hm
      | .pub _ _, .page _ _ _ _ => cases hm
      | .intercept _ _, .node _ _ _ _ _ => cases hm
      | .intercept _ _, .intercept _ _ => cases hm
      | .intercept _ _, .pub _ _ => cases hm
      | .node _ _ _ _ _, .intercept _ _ => cases hm
      | .pub _ _, .intercept _ _ => cases hm
      | .pub _ _, .node _ _ _ _ _ => cases hm
      | .pub _ _, .pub _ _ => cases hm
      | .node _ _ _ _ _, .pub _ _ => cases hm
      | .node lseg lidx lfb lsl lch, .node rseg ridx rfb rsl rch =>
        simp only [mergeManifestRoutes] at hm
        by_cases hseg : lseg ≠ rseg
        · rw [if_pos hseg] at hm; cases hm
        · rw [if_neg hseg] at hm
          by_cases hidx : lidx.isSome ∧ ridx.isSome
          · rw [if_pos hidx] at hm; cases hm
          · rw [if_neg hidx] at hm
            cases hfb : mergeFallbackEntries lfb rfb with
            | error e => rw [hfb] at hm; cases hm
            | ok fb2 =>
              rw [hfb] at hm
              cases hsl : mergeSlotEntries lsl rsl with
              | error e =>
                simp only [hsl, ebind_ok, ebind_error] at hm
                cases hm
              | ok sl2 =>
                simp only [hsl, ebind_ok] at hm
                cases hch : mergeChildEntries fuel lch rch with
                | error e =>
                  simp only [hch, ebind_error] at hm
                  cases hm
                | ok ch2 =>
                  simp only [hch, ebind_ok] at hm
                  cases hm
                  have hln := (gs_node_iff _ _ _ _ _).mp hl
                  have hrn := (gs_node_iff _ _ _ _ _).mp hr
                  refine (gs_node_iff _ _ _ _ _).mpr ⟨?_, ?_, ?_⟩
                  · exact mergeFallbackEntries_all _ rfb lfb fb2 hfb
                      hln.1 hrn.1
                  · exact mergeSlotEntries_all _ rsl lsl sl2 hsl
                      hln.2.1 hrn.2.1
                  · exact ih.2 lch rch ch2 hch hln.2.2 hrn.2.2
    · intro acc rest out h hacc hrest
      match rest with
      | [] =>
        cases h
        exact hacc
      | (seg, rc) :: rest2 =>
        simp only [mergeChildEntries] at h
        cases hl : alistLookup acc seg with
        | some leftChild =>
          rw [hl] at h
          cases hmg : mergeManifestRoutes fuel leftChild rc with
          | error e =>
            simp only [hmg, ebind_error] at h
            cases h
          | ok merged =>
            simp only [hmg, ebind_ok] at h
            have hh := hrest (seg, rc) (List.mem_cons_self _ _)
            have hgm : GoodShape merged :=
              (ih.1 leftChild rc merged hmg
                (hacc (seg, leftChild) (alistLookup_mem acc seg leftChild
                  hl)).2 hh.2)
            refine ih.2 _ rest2 out h ?_ ?_
            · intro kv hm
              rcases alistSet_mem (alistSet acc seg merged) seg rc kv hm
                with h1 | h1
              · rcases alistSet_mem acc seg merged kv h1 with h2 | h2
                · exact hacc kv h2
                · rw [h2]
                  exact ⟨hh.1, hgm⟩
              · rw [h1]
                exact hh
            · intro kv hm
              exact hrest kv (List.mem_cons_of_mem _ hm)
        | none =>
          rw [hl] at h
          refine ih.2 _ rest2 out h ?_ ?_
          · intro kv hm
            rcases alistSet_mem acc seg rc kv hm with h1 | h1
            · exact hacc kv h1
            · rw [h1]
              exact hrest (seg, rc) (List.mem_cons_self _ _)
          · intro kv hm
            exact hrest kv (List.mem_cons_of_mem _ hm)


lemma ebind_ok_inv {α β : Type} {x : Except String α}
    {f : α → Except String β} {b : β} (h : bind x f = .ok b) :
    ∃ a, x = .ok a ∧ f a = .ok b := by
  cases x with
  | error e => rw [ebind_error] at h; cases h
  | ok a =>
    rw [ebind_ok] at h
    exact ⟨a, rfl, h⟩

lemma gs_fromPage (path : String) (param : Option String)
    (st : RouteState) : GoodShape (getManifestRoutesFromPage path param st)
    := by
  intro d
  cases d <;> rfl

lemma manifest_good : ∀ fuel : Nat,
    (∀ cfg st m, getManifestRoutesFromConfig fuel cfg st = .ok m →
      GoodShape m) ∧
    (∀ path layout children st m,
      getManifestRoutesFromNode fuel path layout children st = .ok m →
      GoodShape m) ∧
    (∀ st idx fb sl ch children idx2 fb2 sl2 ch2,
      manifestChildren fuel st idx fb sl ch children =
        .ok (idx2, fb2, sl2, ch2) →
      (∀ kv ∈ fb, strStartsWith kv.1 "^" = true) →
      (∀ kv ∈ sl, strStartsWith kv.1 "@" = true ∧ GoodShape kv.2) →
      (∀ kv ∈ ch, (strStartsWith kv.1 "^" = false ∧
        strStartsWith kv.1 "@" = false) ∧ GoodShape kv.2) →
      ((∀ kv ∈ fb2, strStartsWith kv.1 "^" = true) ∧
       (∀ kv ∈ sl2, strStartsWith kv.1 "@" = true ∧ GoodShape kv.2) ∧
       (∀ kv ∈ ch2, (strStartsWith kv.1 "^" = false ∧
         strStartsWith kv.1 "@" = false) ∧ GoodShape kv.2))) ∧
    (∀ cfg st m, getManifestRouteIntercept fuel cfg st = .ok (some m) →
      GoodShape m) := by
  intro fuel
  induction fuel with
  | zero =>
    refine ⟨?_, ?_, ?_, ?_⟩
    · intro cfg st m h; cases h
    · intro path layout children st m h; cases h
    · intro st idx fb sl ch children idx2 fb2 sl2 ch2 h; cases h
    · intro cfg st m h; cases h
  | succ fuel ih =>
    refine ⟨?_, ?_, ?_, ?_⟩
    · -- getManifestRoutesFromConfig
      intro cfg st m h
      simp only [getManifestRoutesFromConfig] at h
      cases hI : getManifestRouteIntercept fuel cfg st with
      | error e => simp only [hI, ebind_error] at h; cases h
      | ok io =>
        simp only [hI, ebind_ok] at h
        cases io with
        | some m0 =>
          cases h
          exact ih.2.2.2 cfg st _ hI
        | none =>
          cases cfg with
          | page i path param file =>
            cases h
            exact gs_fromPage path param st
          | node i path param layout scripts children =>
            exact ih.2.1 path layout children st m h
    · -- getManifestRoutesFromNode
      intro path layout children st m h
      simp only [getManifestRoutesFromNode] at h
      obtain ⟨q, hq, hk⟩ := ebind_ok_inv h
      obtain ⟨idx2, fb2, sl2, ch2⟩ := q
      have hmk := Except.ok.inj hk
      rw [← hmk]
      have hg := ih.2.2.1 _ none [] [] [] children idx2 fb2 sl2 ch2 hq
        (by intro kv hm; cases hm)
        (by intro kv hm; cases hm)
        (by intro kv hm; cases hm)
      exact (gs_node_iff _ _ _ _ _).mpr ⟨hg.1, hg.2.1, hg.2.2⟩
    · -- manifestChildren
      intro st idx fb sl ch children idx2 fb2 sl2 ch2 h hfb hsl hch
      match children with
      | [] =>
        cases h
        exact ⟨hfb, hsl, hch⟩
      | x :: rest =>
        simp only [manifestChildren] at h
        by_cases hp : x.path = "/"
        · rw [if_pos hp] at h
          cases idx with
          | some _ => cases h
          | none =>
            by_cases hpg : isRouteConfigPage x = true
            · rw [if_pos hpg] at h
              exact ih.2.2.1 st _ fb sl ch rest idx2 fb2 sl2 ch2 h hfb hsl
                hch
            · simp only [hpg, Bool.false_eq_true, if_false] at h
              cases h
        · rw [if_neg hp] at h
          cases hr : getManifestRoutesFromConfig fuel x st with
          | error e => simp only [hr, ebind_error] at h; cases h
          | ok route =>
            simp only [hr, ebind_ok] at h
            have hgr : GoodShape route := ih.1 x st route hr
            by_cases h1 : strStartsWith (getSegmentFromPath x.path) "^" =
                true
            · rw [if_pos h1] at h
              by_cases hpg : isRouteConfigPage x = true
              · simp only [hpg, Bool.not_true, Bool.false_eq_true,
                  if_false] at h
                cases hlk : alistLookup fb (getSegmentFromPath x.path) with
                | some _ => rw [hlk] at h; cases h
                | none =>
                  rw [hlk] at h
                  refine ih.2.2.1 st idx _ sl ch rest idx2 fb2 sl2 ch2 h
                    ?_ hsl hch
                  intro kv hm
                  rcases alistSet_mem fb (getSegmentFromPath x.path) _ kv hm
                    with hm1 | hm1
                  · exact hfb kv hm1
                  · rw [hm1]
                    exact h1
              · simp only [hpg, Bool.not_false, if_true] at h
                cases h
            · simp only [h1, Bool.false_eq_true, if_false] at h
              by_cases h2 : strStartsWith (getSegmentFromPath x.path) "@" =
                  true
              · rw [if_pos h2] at h
                cases hlk : alistLookup sl (getSegmentFromPath x.path) with
                | some old =>
                  rw [hlk] at h
                  cases hmg : mergeManifestRoutes fuel old route with
                  | error e => simp only [hmg, ebind_error] at h; cases h
                  | ok merged =>
                    simp only [hmg, ebind_ok] at h
                    have hgo : GoodShape old :=
                      (hsl (getSegmentFromPath x.path, old)
                        (alistLookup_mem sl _ old hlk)).2
                    have hgm : GoodShape merged :=
                      (merge_good fuel).1 old route merged hmg hgo hgr
                    refine ih.2.2.1 st idx fb _ ch rest idx2 fb2 sl2 ch2 h
                      hfb ?_ hch
                    intro kv hm
                    rcases alistSet_mem sl (getSegmentFromPath x.path) _
                      kv hm with hm1 | hm1
                    · exact hsl kv hm1
                    · rw [hm1]
                      exact ⟨h2, hgm⟩
                | none =>
                  rw [hlk] at h
                  refine ih.2.2.1 st idx fb _ ch rest idx2 fb2 sl2 ch2 h
                    hfb ?_ hch
                  intro kv hm
                  rcases alistSet_mem sl (getSegmentFromPath x.path) _ kv
                    hm with hm1 | hm1
                  · exact hsl kv hm1
                  · rw [hm1]
                    exact ⟨h2, hgr⟩
              · simp only [h2, Bool.false_eq_true, if_false] at h
                have hkey : strStartsWith (getSegmentFromPath x.path) "^" =
                    false ∧ strStartsWith (getSegmentFromPath x.path) "@" =
                    false := by
                  constructor
                  · cases hb : strStartsWith (getSegmentFromPath x.path) "^"
                    · rfl
                    · exact absurd hb h1
                  · cases hb : strStartsWith (getSegmentFromPath x.path) "@"
                    · rfl
                    · exact absurd hb h2
                cases hlk : alistLookup ch (getSegmentFromPath x.path) with
                | some old =>
                  rw [hlk] at h
                  cases hmg : mergeManifestRoutes fuel old route with
                  | error e => simp only [hmg, ebind_error] at h; cases h
                  | ok merged =>
                    simp only [hmg, ebind_ok] at h
                    have hgo : GoodShape old :=
                      (hch (getSegmentFromPath x.path, old)
                        (alistLookup_mem ch _ old hlk)).2
                    have hgm : GoodShape merged :=
                      (merge_good fuel).1 old route merged hmg hgo hgr
                    refine ih.2.2.1 st idx fb sl _ rest idx2 fb2 sl2 ch2 h
                      hfb hsl ?_
                    intro kv hm
                    rcases alistSet_mem ch (getSegmentFromPath x.path) _
                      kv hm with hm1 | hm1
                    · exact hch kv hm1
                    · rw [hm1]
                      exact ⟨hkey, hgm⟩
                | none =>
                  rw [hlk] at h
                  refine ih.2.2.1 st idx fb sl _ rest idx2 fb2 sl2 ch2 h
                    hfb hsl ?_
                  intro kv hm
                  rcases alistSet_mem ch (getSegmentFromPath x.path) _ kv
                    hm with hm1 | hm1
                  · exact hch kv hm1
                  · rw [hm1]
                    exact ⟨hkey, hgr⟩
    · -- getManifestRouteIntercept
      intro cfg st m h
      simp only [getManifestRouteIntercept] at h
      cases hic : cfg.intercept with
      | none => rw [hic] at h; simp at h
      | some kind =>
        rw [hic] at h
        cases hc : getManifestRoutesFromConfig fuel cfg.removeIntercept st
          with
        | error e => simp only [hc, ebind_error] at h; cases h
        | ok child =>
          simp only [hc, ebind_ok] at h
          have hm := Option.some.inj (Except.ok.inj h)
          rw [← hm]
          refine (gs_intercept_iff _ _).mpr ?_
          intro kv hkv
          rcases List.mem_singleton.mp hkv with h1
          rw [h1]
          exact ih.1 cfg.removeIntercept st child hc


/-- C9: in every manifest tree the compiler returns, fallback keys start
with `^`, slot keys with `@`, and children keys with neither, at every
depth; and `mergeManifestRoutes` preserves this key shape. -/
theorem c9_manifest_key_shape :
    (∀ (cfg : RouteConfig) (m : ManifestRoute),
      getManifestRoutes cfg = .ok m → ∀ d, goodShapeN d m = true) ∧
    (∀ (fuel : Nat) (l r m : ManifestRoute),
      mergeManifestRoutes fuel l r = .ok m →
      (∀ d, goodShapeN d l = true) → (∀ d, goodShapeN d r = true) →
      ∀ d, goodShapeN d m = true) := by
  constructor
  · intro cfg m h
    exact (manifest_good compileFuel).1 cfg RouteState.empty m h
  · intro fuel l r m h hl hr
    exact (merge_good fuel).1 l r m h hl hr

theorem c9_manifest_key_shape_witness :
    getManifestRoutes (.node none "/" none none []
        [.page none "/a" none "f"]) =
      .ok (.node "/" none [] [] [("a", .page "a" none [] "a.html")]) ∧
    goodShapeN 3 (.node "/" none [] []
      [("a", .page "a" none [] "a.html")]) = true :=
  ⟨rfl, c9_manifest_key_shape.1
    (.node none "/" none none [] [.page none "/a" none "f"])
    (.node "/" none [] [] [("a", .page "a" none [] "a.html")]) rfl 3⟩

end Pacifica
